import Mathlib

/-!
Verification of the invoice-extraction pipeline (parser.py, schemas.py,
invoice_extractor.py) against its natural-language specification.

The Python source is shallowly embedded: Python floats are modelled as exact
rationals (`Rat`), Python dicts as association lists (lookup returns the last
binding, mirroring dict overwrite-on-duplicate semantics), `json.loads` as a
fuel-indexed recursive-descent parser over the JSON grammar accepted by
Python's default decoder, and the `re` module calls as either a small
backtracking regex engine (for the patterns with groups, alternation and lazy
repetition) or direct character scanners (for the simple substitution
patterns, where the scanner is the leftmost-match/continue-after-match loop
that `re.sub` performs for that exact pattern).
-/

namespace Invoice

/-! ### Characters that the concrete-syntax gate prefers named -/

def lbrace : Char := Char.ofNat 123
def rbrace : Char := Char.ofNat 125
def bquote : Char := Char.ofNat 96

/-! ### Python character classes and string helpers -/

/-- Python `\s` / `str.strip()` whitespace: space, tab, newline, CR, VT, FF. -/
def pyIsSpace (c : Char) : Bool :=
  c = ' ' || c = '\t' || c = '\n' || c = '\r' || c = Char.ofNat 11 || c = Char.ofNat 12

/-- Python `\w` (ASCII fragment): letters, digits, underscore. -/
def pyIsWord (c : Char) : Bool := c.isAlpha || c.isDigit || c = '_'

/-- Python `str.lower()` (ASCII fragment). -/
def pyLower (s : List Char) : List Char := s.map Char.toLower

/-- Python `str.lstrip()` for an arbitrary character set. -/
def pyLstripSet (p : Char → Bool) (s : List Char) : List Char := s.dropWhile p

/-- Python `str.rstrip()` for an arbitrary character set. -/
def pyRstripSet (p : Char → Bool) (s : List Char) : List Char :=
  (s.reverse.dropWhile p).reverse

/-- Python `str.strip()` for an arbitrary character set. -/
def pyStripSet (p : Char → Bool) (s : List Char) : List Char :=
  pyRstripSet p (pyLstripSet p s)

/-- Python `str.strip()` (whitespace). -/
def pyStrip (s : List Char) : List Char := pyStripSet pyIsSpace s

/-- Python `pattern in text` substring test. -/
def isSubstr (pat s : List Char) : Bool :=
  if pat.length = 0 then true
  else match s with
       | [] => false
       | _ :: rest => (pat.isPrefixOf s) || isSubstr pat rest

/-- Python `str.split()` (split on whitespace runs, dropping empty tokens). -/
def pySplitWs (s : List Char) : List (List Char) :=
  match s with
  | [] => []
  | c :: rest =>
    if pyIsSpace c then pySplitWs rest
    else match pySplitWs rest with
         | [] => [[c]]
         | w :: ws =>
           match rest with
           | [] => [[c]]
           | d :: _ => if pyIsSpace d then [c] :: w :: ws else (c :: w) :: ws

/-- Python `' '.join(words)`. -/
def joinSpace (ws : List (List Char)) : List Char :=
  match ws with
  | [] => []
  | [w] => w
  | w :: rest => w ++ ' ' :: joinSpace rest

/-- Python `' '.join(s.split())`: collapse internal whitespace runs. -/
def collapseWs (s : List Char) : List Char := joinSpace (pySplitWs s)

/-! ### Rational helpers: Python `float` and `round` -/

/-- Floor of a rational as an integer (the denominator is positive). -/
def ratFloor (q : Rat) : Int := Int.fdiv q.num q.den

/-- Round a rational to the nearest integer, ties to even
    (Python `round` banker's rounding). -/
def roundHalfEven (q : Rat) : Int :=
  let f := ratFloor q
  let r := q - (f : Rat)
  if r < 1/2 then f
  else if (1:Rat)/2 < r then f + 1
  else if f % 2 = 0 then f else f + 1

/-- Python `round(x, 2)`, on the exact-rational model of floats. -/
def pyRound2 (q : Rat) : Rat := (roundHalfEven (q * 100) : Rat) / 100

/-- Digits to a natural number. -/
def digitsToNat (ds : List Char) : Nat :=
  ds.foldl (fun acc c => acc * 10 + (c.toNat - '0'.toNat)) 0

def takeDigits (s : List Char) : List Char × List Char :=
  match s with
  | c :: rest =>
    if c.isDigit then
      let (ds, r) := takeDigits rest
      (c :: ds, r)
    else ([], c :: rest)
  | [] => ([], [])

/-- Rational `m × 10^e`. -/
def ratTimesPow10 (m : Rat) (e : Int) : Rat :=
  if 0 ≤ e then m * ((10 : Rat) ^ e.toNat) else m / ((10 : Rat) ^ (-e).toNat)

/-- Python `float(s)` on a character list: optional sign, then
    `digits [. digits] | . digits`, then an optional exponent; surrounding
    whitespace is ignored; anything else raises, modelled as `none`.
    (The `inf`/`nan` spellings are not modelled; no call site produces them.) -/
def pyFloat (s : List Char) : Option Rat :=
  let s := pyStrip s
  let (sgn, s1) : Rat × List Char :=
    match s with
    | '-' :: r => (-1, r)
    | '+' :: r => (1, r)
    | _ => (1, s)
  let (intDs, s2) := takeDigits s1
  let (fracDs, s3) : List Char × List Char :=
    match s2 with
    | '.' :: r => takeDigits r
    | _ => ([], s2)
  if intDs.isEmpty && fracDs.isEmpty then none
  else
    let mant : Rat := sgn * ((digitsToNat (intDs ++ fracDs) : Nat) : Rat)
    match s3 with
    | [] => some (ratTimesPow10 mant (-(fracDs.length : Int)))
    | e :: r =>
      if e = 'e' || e = 'E' then
        let (esgn, r1) : Int × List Char :=
          match r with
          | '-' :: r' => (-1, r')
          | '+' :: r' => (1, r')
          | _ => (1, r)
        let (eds, r2) := takeDigits r1
        if eds.isEmpty || !r2.isEmpty then none
        else some (ratTimesPow10 mant (esgn * (digitsToNat eds : Int) - (fracDs.length : Int)))
      else none

/-! ### JSON values and Python `json.loads`

A parsed JSON value.  Python distinguishes `int` from `float`; both are
modelled as exact `Rat` (the pipeline treats every number through `float()`).
Objects keep their members in source order, duplicates included; `jGet` looks
up the *last* binding, mirroring Python dict overwrite-on-duplicate-key. -/

inductive JValue where
  | jnull
  | jbool (b : Bool)
  | jnum (q : Rat)
  | jstr (s : String)
  | jarr (elems : List JValue)
  | jobj (members : List (String × JValue))

/-- Python `d[k]` / `d.get(k)` on the dict built from the member list:
    the last binding for a key wins. -/
def jGet (members : List (String × JValue)) (k : String) : Option JValue :=
  match members with
  | [] => none
  | (k', v) :: rest =>
    match jGet rest k with
    | some r => some r
    | none => if k' = k then some v else none

/-- Python `k in d`. -/
def jHasKey (members : List (String × JValue)) (k : String) : Bool :=
  members.any (fun kv => kv.1 = k)

/-- JSON inter-token whitespace accepted by Python's decoder: space, tab,
    newline, carriage return. -/
def jsonIsWs (c : Char) : Bool := c = ' ' || c = '\t' || c = '\n' || c = '\r'

def skipJsonWs (s : List Char) : List Char := s.dropWhile jsonIsWs

/-- JSON escape shorthands accepted by Python's decoder. -/
def jsonUnescape (c : Char) : Option Char :=
  if c = '"' then some '"'
  else if c = '\\' then some '\\'
  else if c = '/' then some '/'
  else if c = 'b' then some (Char.ofNat 8)
  else if c = 'f' then some (Char.ofNat 12)
  else if c = 'n' then some '\n'
  else if c = 'r' then some '\r'
  else if c = 't' then some '\t'
  else none

def hexVal (c : Char) : Option Nat :=
  let n := c.toNat
  if 48 ≤ n ∧ n ≤ 57 then some (n - 48)
  else if 97 ≤ n ∧ n ≤ 102 then some (n - 87)
  else if 65 ≤ n ∧ n ≤ 70 then some (n - 55)
  else none

/-- Decoder state inside a JSON string: plain text, just after a backslash,
    or inside a `\uXXXX` escape holding the hex digits read so far. -/
inductive JStrState where
  | plain : JStrState
  | esc : JStrState
  | hex : List Nat → JStrState
deriving DecidableEq

/-- One-character-at-a-time scan of the string contents (the states make the
    backslash and `\uXXXX` lookahead of the decoder explicit). -/
def parseJStringGo (acc : List Char) : JStrState → List Char → Option (String × List Char)
  | _, [] => none
  | .plain, c :: rest =>
    if c = '"' then some (String.mk acc.reverse, rest)
    else if c = '\\' then parseJStringGo acc .esc rest
    else if c.toNat < 32 then none
    else parseJStringGo (c :: acc) .plain rest
  | .esc, e :: rest =>
    if e = 'u' then parseJStringGo acc (.hex []) rest
    else
      match jsonUnescape e with
      | some ch => parseJStringGo (ch :: acc) .plain rest
      | none => none
  | .hex ds, c :: rest =>
    match hexVal c with
    | some v =>
      if ds.length = 3 then
        parseJStringGo (Char.ofNat ((((ds.headI * 16 + ds.getD 1 0) * 16 + ds.getD 2 0) * 16) + v) :: acc)
          .plain rest
      else parseJStringGo acc (.hex (ds ++ [v])) rest
    | none => none

/-- String contents after the opening quote.  Python's default decoder is
    strict: a literal control character (codepoint < 0x20) inside a string is
    an error — this is exactly why `_fix_string_newlines` exists.  `\uXXXX`
    is modelled as `Char.ofNat` (lone surrogates, which Python would keep,
    fall outside `Char` and are not produced by any input we consider). -/
def parseJString (acc : List Char) (s : List Char) : Option (String × List Char) :=
  parseJStringGo acc .plain s

/-- Python's JSON number grammar `-? (0 | [1-9][0-9]*) (\. [0-9]+)?
    ([eE] [+-]? [0-9]+)?`; a dot or exponent marker not followed by a digit is
    not consumed (the regex group simply fails to participate). -/
def parseJNum (cs : List Char) : Option (Rat × List Char) :=
  let (sgn, s1) : Rat × List Char :=
    match cs with
    | '-' :: r => (-1, r)
    | _ => (1, cs)
  let (intDs, s2) := takeDigits s1
  if intDs.isEmpty then none
  else if 1 < intDs.length && intDs.head? = some '0' then none
  else
    let (fracDs, s3) : List Char × List Char :=
      match s2 with
      | '.' :: r =>
        let (f, r') := takeDigits r
        if f.isEmpty then ([], s2) else (f, r')
      | _ => ([], s2)
    let (expo, s4) : Int × List Char :=
      match s3 with
      | e :: r =>
        if e = 'e' || e = 'E' then
          let (esgn, r1) : Int × List Char :=
            match r with
            | '-' :: r' => (-1, r')
            | '+' :: r' => (1, r')
            | _ => (1, r)
          let (eds, r2) := takeDigits r1
          if eds.isEmpty then (0, s3) else (esgn * (digitsToNat eds : Int), r2)
        else (0, s3)
      | [] => (0, s3)
    let mant : Rat := sgn * ((digitsToNat (intDs ++ fracDs) : Nat) : Rat)
    some (ratTimesPow10 mant (expo - (fracDs.length : Int)), s4)

mutual
/-- One JSON value, Python-decoder style (leading whitespace skipped). -/
def parseJVal : Nat → List Char → Option (JValue × List Char)
  | 0, _ => none
  | fuel + 1, cs =>
    match skipJsonWs cs with
    | [] => none
    | c :: r =>
      if c = lbrace then
        match skipJsonWs r with
        | [] => none
        | c' :: r' =>
          if c' = rbrace then some (.jobj [], r')
          else
            match parseJMembers fuel (c' :: r') with
            | some (ms, rest) => some (.jobj ms, rest)
            | none => none
      else if c = '[' then
        match skipJsonWs r with
        | [] => none
        | c' :: r' =>
          if c' = ']' then some (.jarr [], r')
          else
            match parseJElems fuel (c' :: r') with
            | some (es, rest) => some (.jarr es, rest)
            | none => none
      else if c = '"' then
        match parseJString [] r with
        | some (s, rest) => some (.jstr s, rest)
        | none => none
      else if c = 't' then
        match r with
        | 'r' :: 'u' :: 'e' :: rest => some (.jbool true, rest)
        | _ => none
      else if c = 'f' then
        match r with
        | 'a' :: 'l' :: 's' :: 'e' :: rest => some (.jbool false, rest)
        | _ => none
      else if c = 'n' then
        match r with
        | 'u' :: 'l' :: 'l' :: rest => some (.jnull, rest)
        | _ => none
      else if c = '-' || c.isDigit then
        match parseJNum (c :: r) with
        | some (q, rest) => some (.jnum q, rest)
        | none => none
      else none

/-- One-or-more comma-separated array elements (empty handled by the caller;
    no trailing comma, as in Python). -/
def parseJElems : Nat → List Char → Option (List JValue × List Char)
  | 0, _ => none
  | fuel + 1, cs =>
    match parseJVal fuel cs with
    | none => none
    | some (v, r) =>
      match skipJsonWs r with
      | ',' :: r' =>
        match parseJElems fuel r' with
        | some (vs, rest) => some (v :: vs, rest)
        | none => none
      | ']' :: r' => some ([v], r')
      | _ => none

/-- One-or-more comma-separated object members (empty handled by the caller;
    keys must be strings; no trailing comma, as in Python). -/
def parseJMembers : Nat → List Char → Option (List (String × JValue) × List Char)
  | 0, _ => none
  | fuel + 1, cs =>
    match skipJsonWs cs with
    | '"' :: r =>
      match parseJString [] r with
      | none => none
      | some (key, r1) =>
        match skipJsonWs r1 with
        | ':' :: r2 =>
          match parseJVal fuel r2 with
          | none => none
          | some (v, r3) =>
            match skipJsonWs r3 with
            | ',' :: r4 =>
              match parseJMembers fuel r4 with
              | some (ms, rest) => some ((key, v) :: ms, rest)
              | none => none
            | c :: r4 =>
              if c = rbrace then some ([(key, v)], r4) else none
            | [] => none
        | _ => none
    | _ => none
end

/-- Python `json.loads`: parse one document, then require only whitespace to
    remain ("Extra data" otherwise).  Any decode error is `none` (the callers
    catch `JSONDecodeError`). -/
def pyJsonLoads (cs : List Char) : Option JValue :=
  match parseJVal (2 * cs.length + 2) cs with
  | some (v, rest) => if (skipJsonWs rest).isEmpty then some v else none
  | none => none

/-! ### A small backtracking regex engine

Covers exactly the constructs the source's `re` patterns use: literals
(case-sensitive and case-insensitive), character classes, sequencing, ordered
alternation, greedy and lazy repetition, and numbered capture groups.
Matching is continuation-passing backtracking, the same search order as
Python's `re`; `fuel` bounds the call depth (amply, see `reFuel`).  A starred
body that makes no progress stops the repetition (none of the embedded
patterns can match empty there). -/

inductive RE where
  | eps
  | lit (c : Char)
  | litCI (c : Char)
  | cls (p : Char → Bool)
  | seq (a b : RE)
  | alt (a b : RE)
  | star (r : RE) (greedy : Bool)
  | group (n : Nat) (r : RE)

/-- Captures: group index paired with captured characters; the head entry for
    an index is the most recent assignment (Python's `group(n)`). -/
abbrev Caps := List (Nat × List Char)

def reM : Nat → RE → List Char → Caps → (List Char → Caps → Option (Caps × List Char)) →
    Option (Caps × List Char)
  | 0, _, _, _, _ => none
  | fuel + 1, r, cs, caps, k =>
    match r with
    | .eps => k cs caps
    | .lit c =>
      match cs with
      | [] => none
      | x :: rest => if x = c then k rest caps else none
    | .litCI c =>
      match cs with
      | [] => none
      | x :: rest => if x.toLower = c.toLower then k rest caps else none
    | .cls p =>
      match cs with
      | [] => none
      | x :: rest => if p x then k rest caps else none
    | .seq a b => reM fuel a cs caps (fun cs' caps' => reM fuel b cs' caps' k)
    | .alt a b =>
      match reM fuel a cs caps k with
      | some res => some res
      | none => reM fuel b cs caps k
    | .star r' g =>
      let stepThen : Option (Caps × List Char) :=
        reM fuel r' cs caps (fun cs' caps' =>
          if cs'.length = cs.length then none
          else reM fuel (.star r' g) cs' caps' k)
      if g then
        match stepThen with
        | some res => some res
        | none => k cs caps
      else
        match k cs caps with
        | some res => some res
        | none => stepThen
    | .group n r' =>
      reM fuel r' cs caps (fun cs' caps' =>
        k cs' ((n, cs.take (cs.length - cs'.length)) :: caps'))

/-- Depth bound for `reM`: patterns are small, so this is generous. -/
def reFuel (cs : List Char) : Nat := 200 * (cs.length + 2)

/-- Match the pattern at the start of `cs`: captures plus match length. -/
def reMatchAt (r : RE) (cs : List Char) : Option (Caps × Nat) :=
  match reM (reFuel cs) r cs [] (fun rest caps => some (caps, rest)) with
  | some (caps, rest) => some (caps, cs.length - rest.length)
  | none => none

/-- Python `re.search`: leftmost match as `(start, captures, length)`. -/
def reSearchAux (r : RE) : List Char → Nat → Option (Nat × Caps × Nat)
  | cs, i =>
    match reMatchAt r cs with
    | some (caps, len) => some (i, caps, len)
    | none =>
      match cs with
      | [] => none
      | _ :: t => reSearchAux r t (i + 1)

def reSearch (r : RE) (cs : List Char) : Option (Nat × Caps × Nat) :=
  reSearchAux r cs 0

/-- Python `re.finditer`: non-overlapping matches left to right, resuming
    after each match (one character forward for an empty match). -/
def reFindIter (r : RE) : Nat → List Char → Nat → List (Nat × Caps × Nat)
  | 0, _, _ => []
  | fuel + 1, cs, base =>
    match reSearch r cs with
    | none => []
    | some (i, caps, len) =>
      let adv := i + max len 1
      (base + i, caps, len) :: reFindIter r fuel (cs.drop adv) (base + adv)

def reFindAll (r : RE) (cs : List Char) : List (Nat × Caps × Nat) :=
  reFindIter r (cs.length + 1) cs 0

/-- Python `re.sub` with a replacement built from the captures (none of the
    embedded patterns can match empty, so no empty-match step is needed). -/
def reSub (r : RE) (repl : Caps → List Char) : Nat → List Char → List Char
  | 0, cs => cs
  | fuel + 1, cs =>
    match reSearch r cs with
    | none => cs
    | some (i, caps, len) =>
      if len = 0 then cs
      else cs.take i ++ repl caps ++ reSub r repl fuel (cs.drop (i + len))

def reSubAll (r : RE) (repl : Caps → List Char) (cs : List Char) : List Char :=
  reSub r repl (cs.length + 1) cs

/-- Group lookup (empty when the group never matched). -/
def capGet (caps : Caps) (n : Nat) : List Char :=
  match caps.find? (fun kv => kv.1 = n) with
  | some kv => kv.2
  | none => []

/-- Sequence a list of regexes. -/
def reSeq (l : List RE) : RE := l.foldr .seq .eps

/-- Case-sensitive literal string. -/
def reStr (s : String) : RE := reSeq (s.toList.map .lit)

/-- Case-insensitive literal string (for `re.IGNORECASE` patterns). -/
def reStrCI (s : String) : RE := reSeq (s.toList.map .litCI)

def reOpt (r : RE) : RE := .alt r .eps

def rePlus (r : RE) (g : Bool) : RE := .seq r (.star r g)

/-- Class `\s`. -/
def reWs : RE := .cls pyIsSpace

/-- Class `\d`. -/
def reDigit : RE := .cls Char.isDigit

/-! ### parser.py — class JSONParser -/

namespace JSONParser

/-- `json_block_pattern`: triple-backtick fenced block, optional `json` tag,
    lazy body (``` `​``(?:json)?\s*([\s\S]*?)`​`` ``, `re.IGNORECASE`). -/
def json_block_re : RE :=
  reSeq [.lit bquote, .lit bquote, .lit bquote, reOpt (reStrCI "json"),
         .star reWs true, .group 1 (.star (.cls (fun _ => true)) false),
         .lit bquote, .lit bquote, .lit bquote]

/-- `json_object_pattern.search`: the greedy regex `\x7b[\s\S]*\x7d` matches
    from the first open brace to the last close brace of the text (the match
    exists iff some close brace follows the first open brace, and greediness
    takes it to the last one). -/
def jsonObjectSpan (cs : List Char) : Option (List Char) :=
  let s := cs.dropWhile (fun c => ¬ c = lbrace)
  match s with
  | [] => none
  | _ :: tail =>
    let r := (lbrace :: (tail.reverse.dropWhile (fun c => ¬ c = rbrace)).reverse)
    match tail.reverse.dropWhile (fun c => ¬ c = rbrace) with
    | [] => none
    | _ => some r

/-- `_validate_structure`: a dict with a list-valued `bill_items` whose
    elements are all dicts (the per-item key checks in the source only
    `continue`, so they never reject). -/
def validate_structure (d : JValue) : Bool :=
  match d with
  | .jobj ms =>
    if ¬ jHasKey ms "bill_items" then false
    else
      match jGet ms "bill_items" with
      | some (.jarr items) =>
        items.all (fun it => match it with | .jobj _ => true | _ => false)
      | _ => false
  | _ => false

/-- `_try_direct_parse`. -/
def try_direct_parse (t : List Char) : Option JValue :=
  match pyJsonLoads t with
  | some d => if validate_structure d then some d else none
  | none => none

/-- `_try_code_block_parse`. -/
def try_code_block_parse (t : List Char) : Option JValue :=
  match reSearch json_block_re t with
  | none => none
  | some (_, caps, _) =>
    match pyJsonLoads (pyStrip (capGet caps 1)) with
    | some d => if validate_structure d then some d else none
    | none => none

/-- `_try_json_object_parse`. -/
def try_json_object_parse (t : List Char) : Option JValue :=
  match jsonObjectSpan t with
  | none => none
  | some j =>
    match pyJsonLoads j with
    | some d => if validate_structure d then some d else none
    | none => none

/-- `_fix_string_newlines`: replace literal newlines inside JSON strings by a
    space (state: inside-string, escape-next). -/
def fixNewlinesGo (inStr esc : Bool) : List Char → List Char
  | [] => []
  | c :: rest =>
    if esc then c :: fixNewlinesGo inStr false rest
    else if c = '\\' then c :: fixNewlinesGo inStr true rest
    else
      let inStr' := if c = '"' then !inStr else inStr
      (if (c = '\n' || c = '\r') && inStr' then ' ' else c) :: fixNewlinesGo inStr' false rest

def fix_string_newlines (text : List Char) : List Char := fixNewlinesGo false false text

/-- `re.sub(r',\s*close', 'close', text)` for `close` one of `\x7d` `]`:
    leftmost-match scan; on `,` followed by whitespace then `close`, emit the
    close bracket alone and resume after it (state `true` swallows the
    whitespace run). -/
def subCommaCloseGo (close : Char) : Bool → List Char → List Char
  | false, [] => []
  | false, c :: rest =>
    if c = ',' && ((rest.dropWhile pyIsSpace).head? = some close) then
      subCommaCloseGo close true rest
    else c :: subCommaCloseGo close false rest
  | true, [] => []
  | true, c :: rest =>
    if pyIsSpace c then subCommaCloseGo close true rest
    else close :: subCommaCloseGo close false rest

def subCommaClose (close : Char) (text : List Char) : List Char :=
  subCommaCloseGo close false text

/-- `re.sub(r'\x7d\s*\x7b', '\x7d,\x7b', text)`: on `\x7d` followed by
    whitespace then `\x7b`, emit `\x7d,\x7b` and resume after. -/
def subBraceBraceGo : Bool → List Char → List Char
  | false, [] => []
  | false, c :: rest =>
    if c = rbrace && ((rest.dropWhile pyIsSpace).head? = some lbrace) then
      rbrace :: subBraceBraceGo true rest
    else c :: subBraceBraceGo false rest
  | true, [] => []
  | true, c :: rest =>
    if pyIsSpace c then subBraceBraceGo true rest
    else ',' :: lbrace :: subBraceBraceGo false rest

def subBraceBrace (text : List Char) : List Char := subBraceBraceGo false text

/-- Lookahead for `re.sub(r'(\s*)(\w+)(\s*):(\s*)', ...)` at a word character:
    the maximal word run from here is followed, modulo whitespace, by `:`. -/
def lookColon (s : List Char) : Bool :=
  ((s.dropWhile pyIsWord).dropWhile pyIsSpace).head? = some ':'

/-- `re.sub(r'(\s*)(\w+)(\s*):(\s*)', r'\1"\2"\3:\4', text)`: every maximal
    word run followed (modulo whitespace) by a colon gets quoted; all other
    characters pass through.  This is the effect of the regex substitution:
    the surrounding `\s*` groups are preserved verbatim by the replacement,
    and a shorter `\w+` than the maximal run can never satisfy the following
    `:` (the next character would be a word character). -/
def subQuoteKeysGo : Bool → List Char → List Char
  | true, [] => ['"']
  | true, c :: rest =>
    if pyIsWord c then c :: subQuoteKeysGo true rest
    else '"' :: c :: subQuoteKeysGo false rest
  | false, [] => []
  | false, c :: rest =>
    if pyIsWord c && lookColon (c :: rest) then '"' :: c :: subQuoteKeysGo true rest
    else c :: subQuoteKeysGo false rest

def subQuoteKeys (text : List Char) : List Char := subQuoteKeysGo false text

/-- Lookahead for `re.sub(r'""(\w+)""', r'"\1"', text)`: two quotes, a
    nonempty word run, then two quotes. -/
def dqLook (s : List Char) : Bool :=
  match s with
  | '"' :: '"' :: rest =>
    (¬ (rest.takeWhile pyIsWord).isEmpty) &&
    (match rest.dropWhile pyIsWord with
     | '"' :: '"' :: _ => true
     | _ => false)
  | _ => false

/-- `re.sub(r'""(\w+)""', r'"\1"', text)` as a four-state scanner: on a full
    match emit one opening quote (state 1 swallows the second), copy the word
    run (state 2), emit one closing quote (state 3 swallows the second). -/
def subDoubleQuotedGo : Nat → List Char → List Char
  | _, [] => []
  | 0, c :: rest =>
    if dqLook (c :: rest) then '"' :: subDoubleQuotedGo 1 rest
    else c :: subDoubleQuotedGo 0 rest
  | 1, _ :: rest => subDoubleQuotedGo 2 rest
  | 2, c :: rest =>
    if pyIsWord c then c :: subDoubleQuotedGo 2 rest
    else '"' :: subDoubleQuotedGo 3 rest
  | _, _ :: rest => subDoubleQuotedGo 0 rest

def subDoubleQuoted (text : List Char) : List Char := subDoubleQuotedGo 0 text

def itemNameKeyQ : List Char := "\"item_name\"".toList
def itemAmountKeyQ : List Char := "\"item_amount\"".toList

/-- `_find_last_complete_item` scan: index, brace depth (an `Int`, as in the
    source it can go negative), start of the current depth-0 object, last
    recorded position. -/
def flciGo (full : List Char) : List Char → Nat → Int → Int → Int → Int
  | [], _, _, _, best => best
  | c :: rest, i, depth, start, best =>
    if c = lbrace then
      flciGo full rest (i + 1) (depth + 1) (if depth = 0 then (i : Int) else start) best
    else if c = rbrace then
      if depth - 1 = 0 && 0 ≤ start then
        let snippet := (full.drop start.toNat).take (i + 1 - start.toNat)
        if isSubstr itemNameKeyQ snippet || isSubstr itemAmountKeyQ snippet then
          flciGo full rest (i + 1) (depth - 1) start (i : Int)
        else flciGo full rest (i + 1) (depth - 1) start best
      else flciGo full rest (i + 1) (depth - 1) start best
    else flciGo full rest (i + 1) depth start best

/-- `_find_last_complete_item`: position of the last brace-balanced object
    (at depth 0) containing an item-like key, `-1` if none. -/
def find_last_complete_item (text : List Char) : Int :=
  flciGo text text 0 0 (-1) (-1)

/-- `_fix_truncation`: when brace/bracket counts are unbalanced, cut at the
    last complete item (only for a strictly positive position, as in the
    source), strip a trailing comma and whitespace, and append the closing
    brackets then braces needed to balance. -/
def fix_truncation (text : List Char) : List Char :=
  let openBraces : Int := (text.count lbrace : Int) - (text.count rbrace : Int)
  let openBrackets : Int := (text.count '[' : Int) - (text.count ']' : Int)
  if 0 < openBraces || 0 < openBrackets then
    let lastComplete := find_last_complete_item text
    let text := if 0 < lastComplete then text.take (lastComplete.toNat + 1) else text
    let ob : Int := (text.count lbrace : Int) - (text.count rbrace : Int)
    let obk : Int := (text.count '[' : Int) - (text.count ']' : Int)
    let text := pyRstripSet pyIsSpace (pyRstripSet (fun c => c = ',') text)
    text ++ List.replicate (max 0 obk).toNat ']' ++ List.replicate (max 0 ob).toNat rbrace
  else text

/-- `_fix_json_issues`.  Step 1 (UTF-8 encode/decode with `errors='ignore'`)
    is the identity on well-formed text and is modelled as such. -/
def fix_json_issues (text : List Char) : List Char :=
  let text := fix_string_newlines text
  let text := subCommaClose rbrace text
  let text := subCommaClose ']' text
  let text := subBraceBrace text
  let text := subQuoteKeys text
  let text := subDoubleQuoted text
  fix_truncation text

/-- `_try_fixed_parse`. -/
def try_fixed_parse (t : List Char) : Option JValue :=
  match jsonObjectSpan t with
  | none => none
  | some j =>
    match pyJsonLoads (fix_json_issues j) with
    | some d => if validate_structure d then some d else none
    | none => none

end JSONParser

namespace JSONParser

/-- Intermediate item dict built by `_try_regex_extraction` /
    `_extract_full_item`: name, amount, optional rate and quantity. -/
structure RxItem where
  name : List Char
  amount : Rat
  rate : Option Rat := none
  qty : Option Rat := none
deriving DecidableEq

/-- The dict `{"item_name": ..., "item_amount": ..., ["item_rate": ...,]
    ["item_quantity": ...]}` in insertion order. -/
def itemToJValue (it : RxItem) : JValue :=
  .jobj ([("item_name", .jstr (String.mk it.name)), ("item_amount", .jnum it.amount)] ++
    (match it.rate with
     | some r => [("item_rate", JValue.jnum r)]
     | none => []) ++
    (match it.qty with
     | some q => [("item_quantity", JValue.jnum q)]
     | none => []))

/-- Python `str.replace('Rs', '')` (left-to-right, non-overlapping). -/
def removeRs : List Char → List Char
  | 'R' :: 's' :: rest => removeRs rest
  | c :: rest => c :: removeRs rest
  | [] => []

/-- `_parse_number`: drop commas and currency markers, then `float`; any
    failure gives `0.0`.  (`Char.ofNat 8377` is the rupee sign.) -/
def parse_number (s : List Char) : Rat :=
  if s.isEmpty then 0
  else
    let s := pyStrip (removeRs ((s.filter (fun c => ¬ c = ',')).filter
      (fun c => ¬ c = Char.ofNat 8377)))
    match pyFloat s with
    | some q => q
    | none => 0

/-- `[\d,]+\.?\d*`. -/
def numRe : RE :=
  reSeq [rePlus (.cls (fun c => c.isDigit || c = ',')) true, reOpt (.lit '.'),
         .star reDigit true]

/-- `(\d+\.?\d*)` (pattern 3's amount). -/
def plainNumRe : RE :=
  reSeq [rePlus reDigit true, reOpt (.lit '.'), .star reDigit true]

/-- `"item_name"\s*:\s*"([^"]+)"[^\x7d]*?"item_amount"\s*:\s*([\d,]+\.?\d*)`
    (`re.DOTALL | re.IGNORECASE`). -/
def pattern1 : RE :=
  reSeq [.lit '"', reStrCI "item_name", .lit '"', .star reWs true, .lit ':',
         .star reWs true, .lit '"', .group 1 (rePlus (.cls (fun c => ¬ c = '"')) true),
         .lit '"', .star (.cls (fun c => ¬ c = rbrace)) false,
         .lit '"', reStrCI "item_amount", .lit '"', .star reWs true, .lit ':',
         .star reWs true, .group 2 numRe]

/-- `"item_amount"\s*:\s*([\d,]+\.?\d*)[^\x7d]*?"item_name"\s*:\s*"([^"]+)"`. -/
def pattern2 : RE :=
  reSeq [.lit '"', reStrCI "item_amount", .lit '"', .star reWs true, .lit ':',
         .star reWs true, .group 1 numRe,
         .star (.cls (fun c => ¬ c = rbrace)) false,
         .lit '"', reStrCI "item_name", .lit '"', .star reWs true, .lit ':',
         .star reWs true, .lit '"', .group 2 (rePlus (.cls (fun c => ¬ c = '"')) true),
         .lit '"']

/-- `item_name["\s:]+([^"]+)["\s,]+.*?item_amount["\s:]+(\d+\.?\d*)`. -/
def pattern3 : RE :=
  reSeq [reStrCI "item_name", rePlus (.cls (fun c => c = '"' || pyIsSpace c || c = ':')) true,
         .group 1 (rePlus (.cls (fun c => ¬ c = '"')) true),
         rePlus (.cls (fun c => c = '"' || pyIsSpace c || c = ',')) true,
         .star (.cls (fun _ => true)) false,
         reStrCI "item_amount", rePlus (.cls (fun c => c = '"' || pyIsSpace c || c = ':')) true,
         .group 2 plainNumRe]

/-- `"item_rate"\s*:\s*([\d,]+\.?\d*)` (`re.IGNORECASE`). -/
def rateRe : RE :=
  reSeq [.lit '"', reStrCI "item_rate", .lit '"', .star reWs true, .lit ':',
         .star reWs true, .group 1 numRe]

/-- `"item_quantity"\s*:\s*([\d,]+\.?\d*)` (`re.IGNORECASE`). -/
def qtyRe : RE :=
  reSeq [.lit '"', reStrCI "item_quantity", .lit '"', .star reWs true, .lit ':',
         .star reWs true, .group 1 numRe]

/-- `_extract_full_item`: look for rate and quantity in a window of 50
    characters before and 200 after the match. -/
def extract_full_item (text : List Char) (start endp : Nat) (name : List Char)
    (amount : Rat) : RxItem :=
  let cstart := start - 50
  let cend := min text.length (endp + 200)
  let context := (text.drop cstart).take (cend - cstart)
  let rate : Option Rat :=
    match reSearch rateRe context with
    | some (_, caps, _) =>
      let r := parse_number (capGet caps 1)
      if 0 < r then some r else none
    | none => none
  let qty : Option Rat :=
    match reSearch qtyRe context with
    | some (_, caps, _) =>
      let q := parse_number (capGet caps 1)
      if 0 < q then some q else none
    | none => none
  { name := name, amount := amount, rate := rate, qty := qty }

/-- `_deduplicate_items` inner loop, carrying the `seen` key set. -/
def dedupGo (seen : List (List Char × Rat)) : List RxItem → List RxItem
  | [] => []
  | it :: rest =>
    let key : List Char × Rat := (pyStrip (pyLower it.name), pyRound2 it.amount)
    if ¬ seen.contains key ∧ ¬ key.1.isEmpty ∧ 0 < key.2 then
      it :: dedupGo (key :: seen) rest
    else dedupGo seen rest

/-- `_deduplicate_items`: drop repeats by (lowercased stripped name, rounded
    amount), also dropping empty-name or non-positive-rounded keys. -/
def deduplicate_items (items : List RxItem) : List RxItem := dedupGo [] items

/-- `"page_type"\s*:\s*"([^"]+)"` (`re.IGNORECASE`). -/
def pageTypeRe : RE :=
  reSeq [.lit '"', reStrCI "page_type", .lit '"', .star reWs true, .lit ':',
         .star reWs true, .lit '"', .group 1 (rePlus (.cls (fun c => ¬ c = '"')) true),
         .lit '"']

def anyKw (kws : List String) (tl : List Char) : Bool :=
  kws.any (fun k => isSubstr k.toList tl)

/-- Content-keyword page-type inference (the tail of `_detect_page_type`). -/
def inferPageType (tl : List Char) : String :=
  if anyKw ["pharmacy", "medicine", "tablet", "capsule", "syrup", "injection", "mg", "ml"] tl
  then "Pharmacy"
  else if anyKw ["final bill", "grand total", "total payable", "net amount"] tl
  then "Final Bill"
  else if anyKw ["investigation", "lab", "test", "pathology", "radiology"] tl
  then "Investigation"
  else if anyKw ["consultation", "doctor", "visit"] tl then "Consultation"
  else if anyKw ["room", "bed", "accommodation"] tl then "Room Charges"
  else "Bill Detail"

/-- `_detect_page_type`: prefer an explicit `page_type` field when its value
    is one of the six recognized labels, else sniff keywords. -/
def detect_page_type (text : List Char) : String :=
  let tl := pyLower text
  match reSearch pageTypeRe text with
  | some (_, caps, _) =>
    let explicitType := String.mk (capGet caps 1)
    if explicitType ∈ ["Pharmacy", "Final Bill", "Bill Detail", "Investigation",
                       "Consultation", "Room Charges"] then
      explicitType
    else inferPageType tl
  | none => inferPageType tl

/-- Pattern-1 pass of `_try_regex_extraction`. -/
def itemsPat1 (t : List Char) : List RxItem :=
  (reFindAll pattern1 t).filterMap (fun m =>
    let name := pyStrip (capGet m.2.1 1)
    let amount := parse_number (capGet m.2.1 2)
    if ¬ name.isEmpty ∧ 0 < amount then
      some (extract_full_item t m.1 (m.1 + m.2.2) name amount)
    else none)

/-- Pattern-2 pass (amount before name). -/
def itemsPat2 (t : List Char) : List RxItem :=
  (reFindAll pattern2 t).filterMap (fun m =>
    let amount := parse_number (capGet m.2.1 1)
    let name := pyStrip (capGet m.2.1 2)
    if ¬ name.isEmpty ∧ 0 < amount then
      some (extract_full_item t m.1 (m.1 + m.2.2) name amount)
    else none)

/-- Pattern-3 pass (looser; no rate/quantity window). -/
def itemsPat3 (t : List Char) : List RxItem :=
  (reFindAll pattern3 t).filterMap (fun m =>
    let name := pyStripSet (fun c => c = '"') (pyStrip (capGet m.2.1 1))
    let amount := parse_number (capGet m.2.1 2)
    if ¬ name.isEmpty ∧ 0 < amount then
      some { name := name, amount := amount }
    else none)

/-- `_try_regex_extraction`: the three passes in fallback order, then
    deduplication and page-type detection.  (The emptiness test happens
    before deduplication, exactly as in the source: a page whose items all
    deduplicate away still yields a dict with an empty `bill_items`.) -/
def try_regex_extraction (t : List Char) : Option JValue :=
  let items := itemsPat1 t
  let items := if items.isEmpty then itemsPat2 t else items
  let items := if items.isEmpty then itemsPat3 t else items
  if items.isEmpty then none
  else
    some (.jobj [("page_type", .jstr (detect_page_type t)),
                 ("bill_items", .jarr ((deduplicate_items items).map itemToJValue))])

/-- `JSONParser.parse`: the five-strategy cascade.  A strategy's dict result
    is always nonempty (strategies 1–4 validate `bill_items` in, strategy 5
    builds a two-key dict), so Python's truthiness test on it coincides with
    the `Option` match. -/
def parse (text : List Char) : Option JValue :=
  if text.isEmpty || (pyStrip text).isEmpty then none
  else
    let t := pyStrip text
    match try_direct_parse t with
    | some r => some r
    | none =>
      match try_code_block_parse t with
      | some r => some r
      | none =>
        match try_json_object_parse t with
        | some r => some r
        | none =>
          match try_fixed_parse t with
          | some r => some r
          | none => try_regex_extraction t

end JSONParser

/-! ### Python `str()` over JSON values -/

def natDigits (n : Nat) : List Char := Nat.toDigits 10 n

def intDecimal (i : Int) : List Char :=
  if i < 0 then '-' :: natDigits i.natAbs else natDigits i.natAbs

/-- Fraction digits of `n / d` (`n < d`), up to `fuel` places. -/
def fracDigits : Nat → Nat → Nat → List Char
  | 0, _, _ => []
  | fuel + 1, n, d =>
    if n = 0 then []
    else Char.ofNat ('0'.toNat + n * 10 / d) :: fracDigits fuel (n * 10 % d) d

/-- Decimal rendering of a rational: Python `str` of an int when integral,
    and of a float otherwise (exact for decimal-representable values, which
    is all the pipeline produces). -/
def numRepr (q : Rat) : List Char :=
  if q.den = 1 then intDecimal q.num
  else
    let sign : List Char := if q.num < 0 then ['-'] else []
    let a := q.num.natAbs
    let f := fracDigits 17 (a % q.den) q.den
    sign ++ natDigits (a / q.den) ++ '.' :: (if f.isEmpty then ['0'] else f)

mutual
/-- Python `repr()` of a parsed JSON value (strings quoted; containers in
    Python's list/dict notation; escapes in strings not modelled). -/
def jReprI : JValue → List Char
  | .jnull => "None".toList
  | .jbool true => "True".toList
  | .jbool false => "False".toList
  | .jnum q => numRepr q
  | .jstr s => '\'' :: s.toList ++ ['\'']
  | .jarr es => '[' :: jReprList es ++ [']']
  | .jobj ms => lbrace :: jReprMembers ms ++ [rbrace]
def jReprList : List JValue → List Char
  | [] => []
  | [v] => jReprI v
  | v :: rest => jReprI v ++ ',' :: ' ' :: jReprList rest
def jReprMembers : List (String × JValue) → List Char
  | [] => []
  | [(k, v)] => '\'' :: k.toList ++ '\'' :: ':' :: ' ' :: jReprI v
  | (k, v) :: rest =>
    '\'' :: k.toList ++ '\'' :: ':' :: ' ' :: jReprI v ++ ',' :: ' ' :: jReprMembers rest
end

/-- Python `str()` of a parsed JSON value (top level: strings unquoted). -/
def jStr : JValue → List Char
  | .jstr s => s.toList
  | v => jReprI v

/-- Python truthiness of a parsed JSON value. -/
def jTruthy : JValue → Bool
  | .jnull => false
  | .jbool b => b
  | .jnum q => ¬ q = 0
  | .jstr s => ¬ s.isEmpty
  | .jarr l => ¬ l.isEmpty
  | .jobj l => ¬ l.isEmpty

/-- Python `d.get(k, default)`. -/
def jGetOr (ms : List (String × JValue)) (k : String) (dflt : JValue) : JValue :=
  match jGet ms k with
  | some v => v
  | none => dflt

/-! ### parser.py — class ResponseValidator -/

namespace ResponseValidator

/-- A cleaned line item as built by `_validate_item`. -/
structure CleanedItem where
  item_name : List Char
  item_amount : Rat
  item_rate : Option Rat := none
  item_quantity : Option Rat := none
deriving DecidableEq

/-- Validation warnings (the source formats these as f-strings; the payload
    data is kept instead of the rendered text). -/
inductive VWarning where
  | short_name (name : List Char)
  | header_row (name : List Char)
  | invalid_amount (name : List Char) (amount : Rat)
  | amount_mismatch (name : List Char) (rate qty expected amount : Rat)
deriving DecidableEq

def skip_keywords : List String :=
  ["total", "subtotal", "sub-total", "grand total",
   "net amount", "net payable", "amount payable",
   "discount", "tax", "gst", "cgst", "sgst", "igst",
   "advance", "deposit", "adjustment", "balance",
   "page", "continued", "header", "footer"]

def min_name_length : Nat := 3

/-- Python `str.replace('Rs.', '')`. -/
def removeRsDot : List Char → List Char
  | 'R' :: 's' :: '.' :: rest => removeRsDot rest
  | c :: rest => c :: removeRsDot rest
  | [] => []

/-- `re.search(r'[\d.]+', s)`: first maximal run of digits and dots. -/
def firstNumRun (s : List Char) : Option (List Char) :=
  match s.dropWhile (fun c => ¬ (c.isDigit || c = '.')) with
  | [] => none
  | s' => some (s'.takeWhile (fun c => c.isDigit || c = '.'))

/-- `_parse_amount`: `None` is zero, numbers pass through (a Python bool is
    an int: `True` is `1.0`), and strings go through currency-marker
    stripping, first-numeric-token extraction, and `float` with fallback 0. -/
def parse_amount (v : JValue) : Rat :=
  match v with
  | .jnull => 0
  | .jnum q => q
  | .jbool b => if b then 1 else 0
  | v =>
    let s := pyStrip (JSONParser.removeRs (removeRsDot
      (((jStr v).filter (fun c => ¬ c = ',')).filter (fun c => ¬ c = Char.ofNat 8377))))
    match firstNumRun s with
    | some run => (pyFloat run).getD 0
    | none => 0

/-- `\s*(No|Nos|Units?|Pcs?|Qty)\.?\s*` (`re.IGNORECASE`). -/
def unitNoiseRe : RE :=
  reSeq [.star reWs true,
         .group 1 (.alt (reStrCI "No") (.alt (reStrCI "Nos")
           (.alt (.seq (reStrCI "Unit") (reOpt (.litCI 's')))
             (.alt (.seq (reStrCI "Pc") (reOpt (.litCI 's'))) (reStrCI "Qty"))))),
         reOpt (.lit '.'), .star reWs true]

/-- `_parse_quantity`: strip unit-noise suffixes, then first numeric token. -/
def parse_quantity (v : JValue) : Rat :=
  match v with
  | .jnull => 0
  | .jnum q => q
  | .jbool b => if b then 1 else 0
  | v =>
    let s := reSubAll unitNoiseRe (fun _ => []) (jStr v)
    match firstNumRun s with
    | some run => (pyFloat run).getD 0
    | none => 0

/-- The class `[\d\.\-\)\]\s]` of `_clean_name`'s leading-numbering strip. -/
def leadNumClass (c : Char) : Bool :=
  c.isDigit || c = '.' || c = '-' || c = ')' || c = ']' || pyIsSpace c

/-- The `_clean_name` trim set `'.,;:-() '`. -/
def trimPunct (c : Char) : Bool :=
  c = '.' || c = ',' || c = ';' || c = ':' || c = '-' || c = '(' || c = ')' || c = ' '

/-- `_clean_name`: drop the leading numbering run (`re.sub(r'^[...]+', '')`),
    trim surrounding punctuation, collapse internal whitespace. -/
def clean_name (name : List Char) : List Char :=
  collapseWs (pyStripSet trimPunct (name.dropWhile leadNumClass))

/-- The name lookup of `_validate_item`:
    `item.get('item_name', item.get('name', item.get('description', '')))`. -/
def itemRawName (item : List (String × JValue)) : JValue :=
  jGetOr item "item_name" (jGetOr item "name" (jGetOr item "description" (.jstr "")))

/-- `name = str(name).strip() if name else ''`. -/
def itemName (item : List (String × JValue)) : List Char :=
  if jTruthy (itemRawName item) then pyStrip (jStr (itemRawName item)) else []

/-- The amount lookup chain of `_validate_item`. -/
def itemAmount (item : List (String × JValue)) : Rat :=
  parse_amount (jGetOr item "item_amount" (jGetOr item "amount" (.jnum 0)))

/-- The rate lookup chain of `_validate_item`. -/
def itemRate (item : List (String × JValue)) : Rat :=
  parse_amount (jGetOr item "item_rate" (jGetOr item "rate" (.jnum 0)))

/-- The quantity lookup chain of `_validate_item`. -/
def itemQuantity (item : List (String × JValue)) : Rat :=
  parse_quantity (jGetOr item "item_quantity" (jGetOr item "quantity" (.jnum 0)))

/-- `_validate_item` on an item dict. -/
def validate_item (item : List (String × JValue)) :
    Option CleanedItem × List VWarning :=
  let name := itemName item
  if name.length < min_name_length then
    (none, [.short_name name])
  else
    let nameLower := pyLower name
    if skip_keywords.any (fun kw => isSubstr kw.toList nameLower) then
      (none, [.header_row name])
    else
      let amount := itemAmount item
      if amount ≤ 0 then
        (none, [.invalid_amount name amount])
      else
        let rate := itemRate item
        let quantity := itemQuantity item
        let cleaned : CleanedItem :=
          { item_name := clean_name name,
            item_amount := pyRound2 amount,
            item_rate := if 0 < rate then some (pyRound2 rate) else none,
            item_quantity := if 0 < quantity then some quantity else none }
        let warnings : List VWarning :=
          if 0 < rate ∧ 0 < quantity ∧ max 1 (amount * (1/10)) < |rate * quantity - amount| then
            [.amount_mismatch name rate quantity (rate * quantity) amount]
          else []
        (some cleaned, warnings)

end ResponseValidator

/-! ### schemas.py — PageType and PageResult.validate_page_type -/

/-- The `PageType` enumeration of schemas.py. -/
def pageTypeEnum : List String :=
  ["Bill Detail", "Pharmacy", "Final Bill", "Investigation", "Consultation",
   "Room Charges", "Services", "Procedure"]

namespace PageResult

/-- The synonym table of `validate_page_type`, in source (dict-insertion)
    order. -/
def type_mapping : List (String × String) :=
  [("pharmacy", "Pharmacy"), ("medicine", "Pharmacy"), ("medicines", "Pharmacy"),
   ("drug", "Pharmacy"),
   ("final bill", "Final Bill"), ("final", "Final Bill"), ("summary", "Final Bill"),
   ("total", "Final Bill"),
   ("bill detail", "Bill Detail"), ("detail", "Bill Detail"), ("details", "Bill Detail"),
   ("investigation", "Investigation"), ("lab", "Investigation"),
   ("laboratory", "Investigation"), ("pathology", "Investigation"),
   ("radiology", "Investigation"),
   ("consultation", "Consultation"), ("doctor", "Consultation"),
   ("room", "Room Charges"), ("room charges", "Room Charges"),
   ("accommodation", "Room Charges"), ("bed", "Room Charges"),
   ("services", "Services"), ("service", "Services"),
   ("procedure", "Procedure"), ("surgery", "Procedure"), ("operation", "Procedure")]

/-- `validate_page_type`: first synonym that is a substring of the lowered,
    stripped label wins; anything unmapped becomes `Bill Detail`. -/
def validate_page_type (v : String) : String :=
  let vl := pyStrip (pyLower v.toList)
  match type_mapping.find? (fun kv => isSubstr kv.1.toList vl) with
  | some kv => kv.2
  | none => "Bill Detail"

end PageResult

/-! ### invoice_extractor.py — class InvoiceExtractor -/

namespace InvoiceExtractor

/-- A line-item dict as built by `format_result` / `salvage_partial_json`. -/
structure BillItem where
  item_name : List Char
  item_amount : Rat
  item_rate : Option Rat := none
  item_quantity : Option Rat := none
deriving DecidableEq

/-- A per-page result dict `{"page_no", "page_type", "bill_items"}`. -/
structure Page where
  page_no : String
  page_type : String
  bill_items : List BillItem
deriving DecidableEq

/-- Whole-document result. -/
structure ExtractionOut where
  pagewise_line_items : List Page
  total_item_count : Nat
deriving DecidableEq

/-- Python `float(x)`: numbers pass, bools are ints, strings parse;
    `None`, lists and dicts raise (`none`). -/
def pyFloatOfJ : JValue → Option Rat
  | .jnum q => some q
  | .jbool b => some (if b then 1 else 0)
  | .jstr s => pyFloat s.toList
  | _ => none

/-- The item loop of `format_result`, in the `Option` monad: an uncaught
    exception (`float` on a bad `item_amount`, or `.get` on a non-dict item)
    aborts `format_result`, whose caller catches it and yields no page. -/
def formatItems : List JValue → Option (List BillItem)
  | [] => some []
  | .jobj im :: rest =>
    let nm := pyStrip (jStr (jGetOr im "item_name" (.jstr "")))
    match pyFloatOfJ (jGetOr im "item_amount" (.jnum 0)) with
    | none => none
    | some amt =>
      let rate : Option Rat :=
        match jGet im "item_rate" with
        | some .jnull => none
        | some v => pyFloatOfJ v
        | none => none
      let qty : Option Rat :=
        match jGet im "item_quantity" with
        | some .jnull => none
        | some v => pyFloatOfJ v
        | none => none
      match formatItems rest with
      | none => none
      | some tail =>
        if ¬ nm.isEmpty ∧ 0 < amt then
          some ({ item_name := nm, item_amount := amt, item_rate := rate,
                  item_quantity := qty } :: tail)
        else some tail
  | _ :: _ => none

/-- `format_result`: normalize `page_type` into `{Bill Detail, Final Bill,
    Pharmacy}`, keep only items with a truthy name and positive amount, and
    return the page only when at least one item remains.  Iterating a
    non-list `bill_items` either yields nothing (empty string/dict) or raises
    (both give `none`, since an empty item list is also `none`). -/
def format_result (data : JValue) : Option Page :=
  match data with
  | .jobj ms =>
    let page_type : String :=
      match jGetOr ms "page_type" (.jstr "Bill Detail") with
      | .jstr s => if s ∈ ["Bill Detail", "Final Bill", "Pharmacy"] then s else "Bill Detail"
      | _ => "Bill Detail"
    let items : Option (List BillItem) :=
      match jGet ms "bill_items" with
      | none => some []
      | some (.jarr xs) => formatItems xs
      | some _ => none
    match items with
    | some (it :: more) =>
      some { page_no := "1", page_type := page_type, bill_items := it :: more }
    | _ => none
  | _ => none

/-- `\x7b[^\x7b\x7d]*"item_name"\s*:\s*"([^"]+)"[^\x7b\x7d]*"item_amount"\s*:\s*([\d.]+)[^\x7b\x7d]*\x7d`
    (salvage strategy 1; case-sensitive). -/
def salvagePat1 : RE :=
  reSeq [.lit lbrace, .star (.cls (fun c => ¬ c = lbrace ∧ ¬ c = rbrace)) true,
         reStr "\"item_name\"", .star reWs true, .lit ':', .star reWs true,
         .lit '"', .group 1 (rePlus (.cls (fun c => ¬ c = '"')) true), .lit '"',
         .star (.cls (fun c => ¬ c = lbrace ∧ ¬ c = rbrace)) true,
         reStr "\"item_amount\"", .star reWs true, .lit ':', .star reWs true,
         .group 2 (rePlus (.cls (fun c => c.isDigit || c = '.')) true),
         .star (.cls (fun c => ¬ c = lbrace ∧ ¬ c = rbrace)) true, .lit rbrace]

/-- Salvage strategy 2: the same with `item_amount` before `item_name`. -/
def salvagePat2 : RE :=
  reSeq [.lit lbrace, .star (.cls (fun c => ¬ c = lbrace ∧ ¬ c = rbrace)) true,
         reStr "\"item_amount\"", .star reWs true, .lit ':', .star reWs true,
         .group 1 (rePlus (.cls (fun c => c.isDigit || c = '.')) true),
         .star (.cls (fun c => ¬ c = lbrace ∧ ¬ c = rbrace)) true,
         reStr "\"item_name\"", .star reWs true, .lit ':', .star reWs true,
         .lit '"', .group 2 (rePlus (.cls (fun c => ¬ c = '"')) true), .lit '"',
         .star (.cls (fun c => ¬ c = lbrace ∧ ¬ c = rbrace)) true, .lit rbrace]

/-- `"item_name"\s*:\s*"([^"]+)"` (strategy 3). -/
def nameFieldRe : RE :=
  reSeq [reStr "\"item_name\"", .star reWs true, .lit ':', .star reWs true,
         .lit '"', .group 1 (rePlus (.cls (fun c => ¬ c = '"')) true), .lit '"']

/-- `"field"\s*:\s*([\d.]+)` (strategy 3, for amount/rate/quantity). -/
def numFieldRe (field : String) : RE :=
  reSeq [.lit '"', reStr field, .lit '"', .star reWs true, .lit ':', .star reWs true,
         .group 1 (rePlus (.cls (fun c => c.isDigit || c = '.')) true)]

/-- `re.escape(name) + r'[^\x7d]*"field"\s*:\s*([\d.]+)'` (the rate/quantity
    enrichment searches). -/
def enrichRe (name : List Char) (field : String) : RE :=
  reSeq [reSeq (name.map .lit), .star (.cls (fun c => ¬ c = rbrace)) true,
         .lit '"', reStr field, .lit '"', .star reWs true, .lit ':', .star reWs true,
         .group 1 (rePlus (.cls (fun c => c.isDigit || c = '.')) true)]

end InvoiceExtractor

namespace InvoiceExtractor

/-- `"page_type"\s*:\s*"([^"]+)"` as used in `salvage_partial_json`
    (no flags: case-sensitive). -/
def salvagePageTypeRe : RE :=
  reSeq [reStr "\"page_type\"", .star reWs true, .lit ':', .star reWs true,
         .lit '"', .group 1 (rePlus (.cls (fun c => ¬ c = '"')) true), .lit '"']

/-- Salvage strategy 1 loop (`none` models a raised exception, which the
    enclosing `try` of `salvage_partial_json` turns into no result). -/
def salvageLoop1 : List (Nat × Caps × Nat) → Option (List BillItem)
  | [] => some []
  | m :: rest =>
    let nm := pyStrip (capGet m.2.1 1)
    match pyFloat (capGet m.2.1 2) with
    | none => none
    | some amt =>
      match salvageLoop1 rest with
      | none => none
      | some tail =>
        if ¬ nm.isEmpty ∧ 0 < amt then
          some ({ item_name := nm, item_amount := amt : BillItem } :: tail)
        else some tail

/-- Salvage strategy 2 loop: append reverse-order matches not already seen
    (by exact name and amount). -/
def salvageLoop2 (acc : List BillItem) : List (Nat × Caps × Nat) → Option (List BillItem)
  | [] => some acc
  | m :: rest =>
    match pyFloat (capGet m.2.1 1) with
    | none => none
    | some amt =>
      let nm := pyStrip (capGet m.2.1 2)
      if ¬ nm.isEmpty ∧ 0 < amt then
        if ¬ acc.any (fun i => i.item_name = nm ∧ i.item_amount = amt) then
          salvageLoop2 (acc ++ [{ item_name := nm, item_amount := amt : BillItem }]) rest
        else salvageLoop2 acc rest
      else salvageLoop2 acc rest

/-- Salvage strategy 3: pair up the i-th name with the i-th amount (and rate
    and quantity when available). -/
def salvageLoop3 (names amounts rates quantities : List (List Char)) :
    Nat → Option (List BillItem)
  | 0 => some []
  | n + 1 =>
    let i := min names.length amounts.length - (n + 1)
    let nm := pyStrip (names.getD i [])
    match pyFloat (amounts.getD i []) with
    | none => none
    | some amt =>
      let rate : Option (Option Rat) :=
        if h : i < rates.length then
          match pyFloat (rates.get ⟨i, h⟩) with
          | none => none
          | some r => some (some r)
        else some none
      let qty : Option (Option Rat) :=
        if h : i < quantities.length then
          match pyFloat (quantities.get ⟨i, h⟩) with
          | none => none
          | some q => some (some q)
        else some none
      match rate, qty with
      | some rate, some qty =>
        match salvageLoop3 names amounts rates quantities n with
        | none => none
        | some tail =>
          if ¬ nm.isEmpty ∧ 0 < amt then
            some ({ item_name := nm, item_amount := amt, item_rate := rate,
                    item_quantity := qty : BillItem } :: tail)
          else some tail
      | _, _ => none

/-- Rate/quantity enrichment for salvaged items missing those fields. -/
def enrichItem (text : List Char) (it : BillItem) : Option BillItem :=
  let withRate : Option BillItem :=
    match it.item_rate with
    | some _ => some it
    | none =>
      match reSearch (enrichRe it.item_name "item_rate") text with
      | none => some it
      | some (_, caps, _) =>
        match pyFloat (capGet caps 1) with
        | none => none
        | some r => some { it with item_rate := some r }
  match withRate with
  | none => none
  | some it =>
    match it.item_quantity with
    | some _ => some it
    | none =>
      match reSearch (enrichRe it.item_name "item_quantity") text with
      | none => some it
      | some (_, caps, _) =>
        match pyFloat (capGet caps 1) with
        | none => none
        | some q => some { it with item_quantity := some q }

def enrichAll (text : List Char) : List BillItem → Option (List BillItem)
  | [] => some []
  | it :: rest =>
    match enrichItem text it, enrichAll text rest with
    | some it', some rest' => some (it' :: rest')
    | _, _ => none

/-- `salvage_partial_json`: complete-object extraction in both field orders,
    then line-by-line pairing for truncated output, then rate/quantity
    enrichment and page-type pickup (raw, unvalidated).  Any exception in the
    body gives `None`. -/
def salvage_partial_json (text : List Char) : Option Page :=
  match salvageLoop1 (reFindAll salvagePat1 text) with
  | none => none
  | some items1 =>
    match salvageLoop2 items1 (reFindAll salvagePat2 text) with
    | none => none
    | some items2 =>
      let items3 : Option (List BillItem) :=
        if items2.isEmpty then
          let names := (reFindAll nameFieldRe text).map (fun m => capGet m.2.1 1)
          let amounts := (reFindAll (numFieldRe "item_amount") text).map (fun m => capGet m.2.1 1)
          let rates := (reFindAll (numFieldRe "item_rate") text).map (fun m => capGet m.2.1 1)
          let quantities := (reFindAll (numFieldRe "item_quantity") text).map (fun m => capGet m.2.1 1)
          salvageLoop3 names amounts rates quantities (min names.length amounts.length)
        else some items2
      match items3 with
      | none => none
      | some [] => none
      | some (it :: more) =>
        match enrichAll text (it :: more) with
        | none => none
        | some bill_items =>
          let page_type : String :=
            match reSearch salvagePageTypeRe text with
            | some (_, caps, _) => String.mk (capGet caps 1)
            | none => "Bill Detail"
          match bill_items with
          | [] => none
          | _ => some { page_no := "1", page_type := page_type, bill_items := bill_items }

/-- The generic-name keyword list of `deduplicate_across_pages`. -/
def summary_keywords : List String :=
  ["consultation", "drugs", "investigations", "medical consumable",
   "other charges", "procedures", "room rent", "surgery", "pharmacy"]

/-- A page more than half of whose items have generic (keyword or short)
    names; only meaningful on pages with items. -/
def is_summary_page (p : Page) : Bool :=
  let generic := (p.bill_items.filter (fun it =>
    let nl := pyStrip (pyLower it.item_name)
    summary_keywords.contains (String.mk nl) || nl.length < 15)).length
  (1 : Rat) / 2 < (generic : Rat) / (p.bill_items.length : Rat)

/-- `deduplicate_across_pages`: classify nonempty pages as summary-like or
    detail; summary pages are relabeled `Final Bill` in place; when both
    kinds exist, only the detail pages are kept. -/
def deduplicate_across_pages (pages : List Page) : List Page :=
  if pages.length ≤ 1 then pages
  else
    let detail := pages.filter (fun p => ¬ p.bill_items.isEmpty ∧ ¬ is_summary_page p)
    let summary := pages.filter (fun p => ¬ p.bill_items.isEmpty ∧ is_summary_page p)
    if ¬ detail.isEmpty ∧ ¬ summary.isEmpty then detail
    else pages.map (fun p =>
      if ¬ p.bill_items.isEmpty ∧ is_summary_page p then { p with page_type := "Final Bill" }
      else p)

/-- The result assembly of `extract_from_pdf` (lines 159–168), from the
    per-page results collected out of the batch calls. -/
def extract_from_pdf_result (all_page_items : List Page) : ExtractionOut :=
  let deduped := deduplicate_across_pages all_page_items
  { pagewise_line_items := deduped,
    total_item_count := (deduped.map (fun p => p.bill_items.length)).sum }

/-- The result assembly of `extract_from_image` (lines 392–395). -/
def extract_from_image_result (page_result : Option Page) : ExtractionOut :=
  match page_result with
  | some p => { pagewise_line_items := [p], total_item_count := p.bill_items.length }
  | none => { pagewise_line_items := [], total_item_count := 0 }

/-- `np.var` of a grayscale pixel array. -/
def npVar (arr : List Nat) : Rat :=
  let n : Rat := (arr.length : Rat)
  let mean : Rat := ((arr.sum : Nat) : Rat) / n
  ((arr.map (fun x => ((x : Rat) - mean) ^ 2)).sum) / n

/-- Fraction of pixels strictly brighter than 240. -/
def whiteRatio (arr : List Nat) : Rat :=
  ((arr.filter (fun x => 240 < x)).length : Rat) / (arr.length : Rat)

/-- `is_blank_page` on the grayscale pixels of the rendered page: variance
    below 500, or more than 95% near-white pixels.  (The `except: return
    False` guard of the source has no counterpart: the pure computation
    cannot fail.) -/
def is_blank_page (arr : List Nat) : Bool :=
  npVar arr < 500 || (95 : Rat) / 100 < whiteRatio arr

/-- The page-collection loop of `extract_from_pdf` (lines 106–128), from the
    rendered grayscale images (rasterization and resizing by fitz/PIL are
    external imaging): pages are numbered from 1 and kept unless blank. -/
def pageImagesGo (n : Nat) : List (List Nat) → List (Nat × List Nat)
  | [] => []
  | img :: rest =>
    if ¬ is_blank_page img then (n + 1, img) :: pageImagesGo (n + 1) rest
    else pageImagesGo (n + 1) rest

def page_images (imgs : List (List Nat)) : List (Nat × List Nat) :=
  pageImagesGo 0 imgs

end InvoiceExtractor

/-! ### schemas.py — ExtractedItem.validate_consistency -/

namespace ExtractedItem

/-- A validated `ExtractedItem` record. -/
structure Item where
  item_name : String
  item_amount : Rat
  item_rate : Option Rat := none
  item_quantity : Option Rat := none
deriving DecidableEq

/-- The cross-check tolerance computed by `validate_consistency`:
    `max(1.0, item_amount * 0.05)` — 5% or one rupee. -/
def consistencyTolerance (it : Item) : Rat := max 1 (it.item_amount * (5 / 100))

/-- `validate_consistency`: the model validator computes
    `expected = item_rate * item_quantity` and the 5% tolerance, but its
    violation branch is `pass` — it never alters or rejects the item. -/
def validate_consistency (it : Item) : Item := it

end ExtractedItem

/-! ### The canonical truncated-document family for the repair round-trip

`mkTruncDoc n` is a JSON object whose `bill_items` array holds `n + 1`
syntactically complete item objects followed by one syntactically incomplete
item object, with the closing brackets missing — the shape named by the
truncation-repair property. -/

/-- One complete item object, `\x7b"item_name":"A","item_amount":5\x7d`. -/
def itChars : List Char := "\x7b\"item_name\":\"A\",\"item_amount\":5\x7d".toList

/-- The document head `\x7b"bill_items":[`. -/
def hdrChars : List Char := "\x7b\"bill_items\":[".toList

/-- The trailing incomplete item `,\x7b"item_name":"B` (no close brace). -/
def fragChars : List Char := ",\x7b\"item_name\":\"B".toList

/-- `n + 1` complete items, comma-separated. -/
def itemsFrom : Nat → List Char
  | 0 => itChars
  | n + 1 => itChars ++ ',' :: itemsFrom n

/-- The truncated document with `n + 1` complete items. -/
def mkTruncDoc (n : Nat) : List Char := hdrChars ++ itemsFrom n ++ fragChars

/-- The parse of one complete item. -/
def itemVal : JValue := .jobj [("item_name", .jstr "A"), ("item_amount", .jnum 5)]

/-- The expected repaired parse: exactly the `n + 1` complete items. -/
def expectedDoc (n : Nat) : JValue :=
  .jobj [("bill_items", .jarr (List.replicate (n + 1) itemVal))]

/-- The document head split after its opening brace. -/
def hdrTail : List Char := "\"bill_items\":[".toList

/-- A truncated document whose incomplete trailing item carries a close brace
    inside its unterminated string: one complete item followed by
    `,\x7b"item_name":"x\x7d`. -/
def truncCexDoc : List Char :=
  "\x7b\"bill_items\":[\x7b\"item_name\":\"A\",\"item_amount\":5\x7d,\x7b\"item_name\":\"x\x7d".toList

/-! ### Theorems

Batteries marks the `Rat` arithmetic operations `@[irreducible]`; concrete
evaluation proofs below need them to unfold. -/

attribute [local semireducible] Rat.mul Rat.inv Rat.add Rat.sub Rat.ofScientific

namespace InvoiceExtractor

/-- The page-collection loop keeps exactly the non-blank pages, paired with
    their 1-based page numbers. -/
theorem pageImagesGo_eq (imgs : List (List Nat)) :
    ∀ n, pageImagesGo n imgs =
      (List.enumFrom (n + 1) imgs).filter (fun p => ¬ is_blank_page p.2) := by
  induction imgs with
  | nil => intro n; rfl
  | cons img rest ih =>
    intro n
    simp only [pageImagesGo, List.enumFrom, List.filter]
    by_cases h : is_blank_page img
    · simp [h, ih (n + 1)]
    · simp [h, ih (n + 1)]

theorem page_images_eq (imgs : List (List Nat)) :
    page_images imgs = (List.enumFrom 1 imgs).filter (fun p => ¬ is_blank_page p.2) :=
  pageImagesGo_eq imgs 0

end InvoiceExtractor

/-- C4: for every result assembled by `extract_from_pdf` and by
    `extract_from_image`, `total_item_count` equals the sum of
    `len(bill_items)` over the pages of `pagewise_line_items`, recomputed
    after cross-page deduplication. -/
theorem C4_total_item_count_consistency :
    (∀ pages : List InvoiceExtractor.Page,
      (InvoiceExtractor.extract_from_pdf_result pages).total_item_count =
        ((InvoiceExtractor.extract_from_pdf_result pages).pagewise_line_items.map
          (fun p => p.bill_items.length)).sum) ∧
    (∀ po : Option InvoiceExtractor.Page,
      (InvoiceExtractor.extract_from_image_result po).total_item_count =
        ((InvoiceExtractor.extract_from_image_result po).pagewise_line_items.map
          (fun p => p.bill_items.length)).sum) := by
  constructor
  · intro pages; rfl
  · intro po
    cases po with
    | none => rfl
    | some p => simp [InvoiceExtractor.extract_from_image_result]

/-- C9: a page whose rendered grayscale image `is_blank_page` judges blank
    (pixel variance below 500, or more than 95% of pixels brighter than 240)
    is excluded from the collected page list, so it is never submitted to the
    model and contributes no page result. -/
theorem C9_blank_pages_excluded (imgs : List (List Nat)) (n : Nat) (img : List Nat)
    (hblank : InvoiceExtractor.is_blank_page img = true) :
    (n, img) ∉ InvoiceExtractor.page_images imgs := by
  intro hmem
  rw [InvoiceExtractor.page_images_eq] at hmem
  have h2 := (List.mem_filter.mp hmem).2
  simp [hblank] at h2

/-- Witness for C9 at a concrete all-white page: it is judged blank and does
    not appear among the processed pages. -/
theorem C9_blank_pages_excluded_witness :
    InvoiceExtractor.is_blank_page (List.replicate 4 255) = true ∧
    (1, List.replicate 4 255) ∉
      InvoiceExtractor.page_images [List.replicate 4 255, [0, 255]] :=
  ⟨by decide, C9_blank_pages_excluded _ 1 _ (by decide)⟩

/-- C8 counterexample: a 30-page document in which every page is non-blank
    yields 30 processed pages — page 30 is still submitted — so no configured
    cap of 20–25 pages exists. -/
theorem C8_no_page_cap_counterexample :
    (InvoiceExtractor.page_images (List.replicate 30 [0, 255])).length = 30 ∧
    (30, [0, 255]) ∈ InvoiceExtractor.page_images (List.replicate 30 [0, 255]) := by
  constructor
  · decide
  · decide

/-- C8 (amended): `extract_from_pdf` applies no page-count cap: every page of
    the PDF is rendered and kept with its 1-based page number unless the
    blank-page filter removes it, regardless of how many pages the document
    has. -/
theorem C8_no_page_cap (imgs : List (List Nat)) :
    InvoiceExtractor.page_images imgs =
      (List.enumFrom 1 imgs).filter (fun p => ¬ InvoiceExtractor.is_blank_page p.2) :=
  InvoiceExtractor.page_images_eq imgs

/-- Core fact shared by C3 and C10: every page returned by `format_result`
    has `page_type` in `{Bill Detail, Final Bill, Pharmacy}`, and any raw
    label other than those three is replaced by `Bill Detail`. -/
theorem format_result_page_types_core (ms : List (String × JValue))
    (r : InvoiceExtractor.Page)
    (h : InvoiceExtractor.format_result (.jobj ms) = some r) :
    r.page_type ∈ ["Bill Detail", "Final Bill", "Pharmacy"] ∧
    (jGetOr ms "page_type" (.jstr "Bill Detail") ≠ .jstr r.page_type →
      r.page_type = "Bill Detail") := by
  simp only [InvoiceExtractor.format_result] at h
  split at h
  next it more heq =>
    rw [Option.some.injEq] at h
    subst h
    constructor
    · split
      next s hs =>
        by_cases hmem : s ∈ ["Bill Detail", "Final Bill", "Pharmacy"]
        · simp [hmem]
        · simp [hmem]
      next => simp
    · intro hne
      split at hne
      next s hs =>
        by_cases hmem : s ∈ ["Bill Detail", "Final Bill", "Pharmacy"]
        · exact absurd (by rw [hs]; simp [hmem]) hne
        · simp [hmem]
      next => simp
  next => exact absurd h (by simp)

/-- C10: every page returned by `format_result` has `page_type` in
    `{Bill Detail, Final Bill, Pharmacy}`, and any raw label other than one of
    those three (including the other enumeration members Investigation,
    Consultation, Room Charges, Services, Procedure) is replaced by
    `Bill Detail`. -/
theorem C10_format_result_page_types (ms : List (String × JValue))
    (r : InvoiceExtractor.Page)
    (h : InvoiceExtractor.format_result (.jobj ms) = some r) :
    r.page_type ∈ ["Bill Detail", "Final Bill", "Pharmacy"] ∧
    (jGetOr ms "page_type" (.jstr "Bill Detail") ≠ .jstr r.page_type →
      r.page_type = "Bill Detail") :=
  format_result_page_types_core ms r h

/-- Witness for C10: a parsed page labelled `Investigation` with one valid
    item comes back labelled `Bill Detail`. -/
theorem C10_format_result_page_types_witness :
    ∃ r : InvoiceExtractor.Page,
      InvoiceExtractor.format_result
        (.jobj [("page_type", .jstr "Investigation"),
                ("bill_items", .jarr [.jobj [("item_name", .jstr "X"),
                                             ("item_amount", .jnum 5)]])]) = some r ∧
      r.page_type ∈ ["Bill Detail", "Final Bill", "Pharmacy"] ∧
      r.page_type = "Bill Detail" := by
  have h : InvoiceExtractor.format_result
      (.jobj [("page_type", .jstr "Investigation"),
              ("bill_items", .jarr [.jobj [("item_name", .jstr "X"),
                                           ("item_amount", .jnum 5)]])]) =
      some { page_no := "1", page_type := "Bill Detail",
             bill_items := [{ item_name := ['X'], item_amount := 5,
                              item_rate := none, item_quantity := none }] } := rfl
  exact ⟨_, h, (C10_format_result_page_types _ _ h).1, rfl⟩

/-- Rounding to two decimals preserves nonnegativity. -/
theorem pyRound2_nonneg (q : Rat) (h : 0 ≤ q) : 0 ≤ pyRound2 q := by
  have hnum : 0 ≤ (q * 100).num := Rat.num_nonneg.mpr (by positivity)
  have hfl : 0 ≤ ratFloor (q * 100) :=
    Int.fdiv_nonneg hnum (Int.ofNat_nonneg _)
  have hr : 0 ≤ roundHalfEven (q * 100) := by
    simp only [roundHalfEven]
    split_ifs <;> omega
  unfold pyRound2
  have hcast : (0 : Rat) ≤ (roundHalfEven (q * 100) : Rat) := by exact_mod_cast hr
  positivity

/-- Inversion of `_validate_item` on a retained item: the parsed amount
    passed the positivity gate, the stored amount is its rounding, and
    warnings appear exactly when the rate-times-quantity cross-check misses
    by more than `max(1.0, amount * 0.1)`. -/
theorem validate_item_some_inv (item : List (String × JValue))
    (c : ResponseValidator.CleanedItem) (ws : List ResponseValidator.VWarning)
    (h : ResponseValidator.validate_item item = (some c, ws)) :
    0 < ResponseValidator.itemAmount item ∧
    c.item_amount = pyRound2 (ResponseValidator.itemAmount item) ∧
    (ws ≠ [] ↔
      (0 < ResponseValidator.itemRate item ∧
       0 < ResponseValidator.itemQuantity item ∧
       max 1 (ResponseValidator.itemAmount item * (1/10)) <
         |ResponseValidator.itemRate item * ResponseValidator.itemQuantity item -
          ResponseValidator.itemAmount item|)) := by
  simp only [ResponseValidator.validate_item] at h
  split at h
  · exact absurd h (by simp)
  · split at h
    · exact absurd h (by simp)
    · split at h
      next hamt => exact absurd h (by simp)
      next hamt =>
        rw [Prod.mk.injEq, Option.some.injEq] at h
        obtain ⟨hc, hw⟩ := h
        refine ⟨lt_of_not_le hamt, by rw [← hc], ?_⟩
        subst hw
        split
        next hcond => simpa using hcond
        next hcond => simpa using hcond

/-- Inversion of `_validate_item` on a rejected item: rejection only ever
    comes from the short-name gate, the skip-keyword gate, or the
    non-positive-amount gate — never from the cross-field check. -/
theorem validate_item_none_inv (item : List (String × JValue))
    (ws : List ResponseValidator.VWarning)
    (h : ResponseValidator.validate_item item = (none, ws)) :
    (∃ nm, ws = [.short_name nm]) ∨ (∃ nm, ws = [.header_row nm]) ∨
    (∃ nm amt, ws = [.invalid_amount nm amt]) := by
  simp only [ResponseValidator.validate_item] at h
  split at h
  · rw [Prod.mk.injEq] at h
    exact Or.inl ⟨_, h.2.symm⟩
  · split at h
    · rw [Prod.mk.injEq] at h
      exact Or.inr (Or.inl ⟨_, h.2.symm⟩)
    · split at h
      · rw [Prod.mk.injEq] at h
        exact Or.inr (Or.inr ⟨_, _, h.2.symm⟩)
      · rw [Prod.mk.injEq] at h
        exact absurd h.1 (by simp)

/-- Retained items of `format_result` all have truthy names and positive
    amounts. -/
theorem formatItems_pos (xs : List JValue) (items : List InvoiceExtractor.BillItem)
    (h : InvoiceExtractor.formatItems xs = some items) :
    ∀ it ∈ items, ¬ it.item_name.isEmpty ∧ 0 < it.item_amount := by
  induction xs generalizing items with
  | nil =>
    simp only [InvoiceExtractor.formatItems, Option.some.injEq] at h
    subst h; intro it hit; cases hit
  | cons x rest ih =>
    cases x with
    | jobj im =>
      simp only [InvoiceExtractor.formatItems] at h
      split at h
      · exact absurd h (by simp)
      · split at h
        · exact absurd h (by simp)
        next tail htail =>
          split at h
          next hcond =>
            rw [Option.some.injEq] at h
            subst h
            intro it hit
            rcases List.mem_cons.mp hit with rfl | hmem
            · exact hcond
            · exact ih tail htail it hmem
          next =>
            rw [Option.some.injEq] at h
            subst h
            exact ih tail htail
    | jnull => simp [InvoiceExtractor.formatItems] at h
    | jbool b => simp [InvoiceExtractor.formatItems] at h
    | jnum q => simp [InvoiceExtractor.formatItems] at h
    | jstr s => simp [InvoiceExtractor.formatItems] at h
    | jarr l => simp [InvoiceExtractor.formatItems] at h

/-- C1 counterexample: the raw item `{"item_name": "ABC", "item_amount":
    0.001}` passes the positivity gate (0.001 > 0) but is retained with
    stored amount `round(0.001, 2) = 0.0`, so a retained item carries
    `item_amount ≤ 0`, refuting the claim that no retained item ever does. -/
theorem C1_positivity_counterexample :
    ResponseValidator.validate_item
        [("item_name", .jstr "ABC"), ("item_amount", .jnum (1/1000))] =
      (some { item_name := "ABC".toList, item_amount := 0,
              item_rate := none, item_quantity := none }, []) ∧
    ((0 : Rat) ≤ 0) :=
  ⟨rfl, le_refl 0⟩

/-- C1 (amended): items are retained only when their parsed amount is
    strictly positive, and on the `format_result` path every retained item
    has `item_amount > 0`; on the `_validate_item` path, however, the stored
    amount is `round(amount, 2)`, which is guaranteed nonnegative but can be
    zero when the parsed amount is below 0.005. -/
theorem C1_positivity_amended :
    (∀ (d : JValue) (r : InvoiceExtractor.Page),
      InvoiceExtractor.format_result d = some r →
        ∀ it ∈ r.bill_items, 0 < it.item_amount) ∧
    (∀ (item : List (String × JValue)) (c : ResponseValidator.CleanedItem)
        (ws : List ResponseValidator.VWarning),
      ResponseValidator.validate_item item = (some c, ws) →
        0 < ResponseValidator.itemAmount item ∧
        c.item_amount = pyRound2 (ResponseValidator.itemAmount item) ∧
        0 ≤ c.item_amount) := by
  constructor
  · intro d r h
    match d, h with
    | .jobj ms, h =>
      simp only [InvoiceExtractor.format_result] at h
      split at h
      next it more heq =>
        rw [Option.some.injEq] at h
        subst h
        intro x hx
        split at heq
        · exact absurd heq (by simp)
        · next xs hxs =>
          exact (formatItems_pos xs _ heq x hx).2
        · exact absurd heq (by simp)
      next => exact absurd h (by simp)
  · intro item c ws h
    obtain ⟨hpos, hamt, _⟩ := validate_item_some_inv item c ws h
    exact ⟨hpos, hamt, hamt ▸ pyRound2_nonneg _ (le_of_lt hpos)⟩

/-- Witness for C1 (amended): the `format_result` half at a one-item page,
    the `_validate_item` half at the 0.001-amount item. -/
theorem C1_positivity_amended_witness :
    ((0 : Rat) <
      ({ item_name := ['X'], item_amount := 5, item_rate := none,
         item_quantity := none } : InvoiceExtractor.BillItem).item_amount) ∧
    (0 < ResponseValidator.itemAmount
        [("item_name", JValue.jstr "ABC"), ("item_amount", JValue.jnum (1/1000))] ∧
     ({ item_name := "ABC".toList, item_amount := 0, item_rate := none,
        item_quantity := none } : ResponseValidator.CleanedItem).item_amount =
       pyRound2 (ResponseValidator.itemAmount
        [("item_name", JValue.jstr "ABC"), ("item_amount", JValue.jnum (1/1000))]) ∧
     (0 : Rat) ≤
       ({ item_name := "ABC".toList, item_amount := 0, item_rate := none,
          item_quantity := none } : ResponseValidator.CleanedItem).item_amount) := by
  constructor
  · exact C1_positivity_amended.1
      (.jobj [("page_type", .jstr "Investigation"),
              ("bill_items", .jarr [.jobj [("item_name", .jstr "X"),
                                           ("item_amount", .jnum 5)]])])
      { page_no := "1", page_type := "Bill Detail",
        bill_items := [{ item_name := ['X'], item_amount := 5,
                         item_rate := none, item_quantity := none }] }
      rfl
      { item_name := ['X'], item_amount := 5, item_rate := none, item_quantity := none }
      (by simp)
  · exact C1_positivity_amended.2
      [("item_name", .jstr "ABC"), ("item_amount", .jnum (1/1000))]
      { item_name := "ABC".toList, item_amount := 0, item_rate := none,
        item_quantity := none }
      [] rfl

/-- C7 counterexample: the item `ABC, amount 100, rate 107, quantity 1`
    misses the cross-check by 7, beyond the claimed `max(1.0, 5%)` tolerance
    of 5 — yet `_validate_item` records no warning, because the tolerance the
    code applies is `max(1.0, 10%)` = 10. -/
theorem C7_tolerance_counterexample :
    ResponseValidator.validate_item
        [("item_name", .jstr "ABC"), ("item_amount", .jnum 100),
         ("item_rate", .jnum 107), ("item_quantity", .jnum 1)] =
      (some { item_name := "ABC".toList, item_amount := 100,
              item_rate := some 107, item_quantity := some 1 }, []) ∧
    max 1 ((100 : Rat) * (5 / 100)) < |(107 : Rat) * 1 - 100| :=
  ⟨rfl, by norm_num⟩

/-- C7 (amended): `_validate_item`'s cross-field check compares
    `rate × quantity` against the amount with tolerance
    `max(1.0, 10% of amount)` — a warning is recorded exactly on violation of
    that bound, and a rejection only ever comes from the name or amount
    gates, never from the cross-check; the schema-level
    `ExtractedItem.validate_consistency` computes a `max(1.0, 5%)` tolerance
    but takes no action at all. -/
theorem C7_cross_check_amended :
    (∀ (item : List (String × JValue)) (c : ResponseValidator.CleanedItem)
        (ws : List ResponseValidator.VWarning),
      ResponseValidator.validate_item item = (some c, ws) →
        (ws ≠ [] ↔
          (0 < ResponseValidator.itemRate item ∧
           0 < ResponseValidator.itemQuantity item ∧
           max 1 (ResponseValidator.itemAmount item * (1/10)) <
             |ResponseValidator.itemRate item * ResponseValidator.itemQuantity item -
              ResponseValidator.itemAmount item|))) ∧
    (∀ (item : List (String × JValue)) (ws : List ResponseValidator.VWarning),
      ResponseValidator.validate_item item = (none, ws) →
        (∃ nm, ws = [.short_name nm]) ∨ (∃ nm, ws = [.header_row nm]) ∨
        (∃ nm amt, ws = [.invalid_amount nm amt])) ∧
    (∀ it : ExtractedItem.Item,
      ExtractedItem.validate_consistency it = it ∧
      ExtractedItem.consistencyTolerance it = max 1 (it.item_amount * (5 / 100))) :=
  ⟨fun item c ws h => (validate_item_some_inv item c ws h).2.2,
   validate_item_none_inv,
   fun _ => ⟨rfl, rfl⟩⟩

/-- Witness for C7 (amended): an item 20% off its cross-check is retained
    with a warning; a `Grand Total` row is rejected by the keyword gate (not
    the cross-check); `validate_consistency` leaves a concrete item
    unchanged. -/
theorem C7_cross_check_amended_witness :
    (([ResponseValidator.VWarning.amount_mismatch "ABC".toList 120 1 120 100] :
        List ResponseValidator.VWarning) ≠ [] ↔
      (0 < ResponseValidator.itemRate
          [("item_name", JValue.jstr "ABC"), ("item_amount", JValue.jnum 100),
           ("item_rate", JValue.jnum 120), ("item_quantity", JValue.jnum 1)] ∧
       0 < ResponseValidator.itemQuantity
          [("item_name", JValue.jstr "ABC"), ("item_amount", JValue.jnum 100),
           ("item_rate", JValue.jnum 120), ("item_quantity", JValue.jnum 1)] ∧
       max 1 (ResponseValidator.itemAmount
          [("item_name", JValue.jstr "ABC"), ("item_amount", JValue.jnum 100),
           ("item_rate", JValue.jnum 120), ("item_quantity", JValue.jnum 1)] * (1/10)) <
         |ResponseValidator.itemRate
            [("item_name", JValue.jstr "ABC"), ("item_amount", JValue.jnum 100),
             ("item_rate", JValue.jnum 120), ("item_quantity", JValue.jnum 1)] *
          ResponseValidator.itemQuantity
            [("item_name", JValue.jstr "ABC"), ("item_amount", JValue.jnum 100),
             ("item_rate", JValue.jnum 120), ("item_quantity", JValue.jnum 1)] -
          ResponseValidator.itemAmount
            [("item_name", JValue.jstr "ABC"), ("item_amount", JValue.jnum 100),
             ("item_rate", JValue.jnum 120), ("item_quantity", JValue.jnum 1)]|)) ∧
    ((∃ nm, ([ResponseValidator.VWarning.header_row "Grand Total".toList] :
        List ResponseValidator.VWarning) = [.short_name nm]) ∨
     (∃ nm, ([ResponseValidator.VWarning.header_row "Grand Total".toList] :
        List ResponseValidator.VWarning) = [.header_row nm]) ∨
     (∃ nm amt, ([ResponseValidator.VWarning.header_row "Grand Total".toList] :
        List ResponseValidator.VWarning) = [.invalid_amount nm amt])) ∧
    (ExtractedItem.validate_consistency
        { item_name := "ABC", item_amount := 100, item_rate := some 107,
          item_quantity := some 1 } =
      { item_name := "ABC", item_amount := 100, item_rate := some 107,
        item_quantity := some 1 } ∧
     ExtractedItem.consistencyTolerance
        { item_name := "ABC", item_amount := 100, item_rate := some 107,
          item_quantity := some 1 } =
       max 1 ((100 : Rat) * (5 / 100))) :=
  ⟨C7_cross_check_amended.1
      [("item_name", JValue.jstr "ABC"), ("item_amount", JValue.jnum 100),
       ("item_rate", JValue.jnum 120), ("item_quantity", JValue.jnum 1)]
      { item_name := "ABC".toList, item_amount := 100,
        item_rate := some 120, item_quantity := some 1 }
      [ResponseValidator.VWarning.amount_mismatch "ABC".toList 120 1 120 100]
      rfl,
   C7_cross_check_amended.2.1
      [("item_name", JValue.jstr "Grand Total"), ("item_amount", JValue.jnum 5000)]
      [ResponseValidator.VWarning.header_row "Grand Total".toList]
      rfl,
   C7_cross_check_amended.2.2
      { item_name := "ABC", item_amount := 100, item_rate := some 107,
        item_quantity := some 1 }⟩

/-- Tokens produced by `pySplitWs` are nonempty and whitespace-free. -/
theorem pySplitWs_tokens (u : List Char) :
    ∀ w ∈ pySplitWs u, w ≠ [] ∧ ∀ c ∈ w, ¬ pyIsSpace c := by
  induction u with
  | nil => intro w hw; cases hw
  | cons c rest ih =>
    intro w hw
    simp only [pySplitWs] at hw
    split at hw
    · exact ih w hw
    next hc =>
      split at hw
      next hrest =>
        rcases List.mem_cons.mp hw with rfl | h'
        · exact ⟨by simp, by simpa using hc⟩
        · cases h'
      next w' ws' hrest =>
        split at hw
        next =>
          rcases List.mem_cons.mp hw with rfl | h'
          · exact ⟨by simp, by simpa using hc⟩
          · cases h'
        next d _ hd =>
          split at hw
          · rcases List.mem_cons.mp hw with rfl | h'
            · exact ⟨by simp, by simpa using hc⟩
            · exact ih w (hrest ▸ h')
          · rcases List.mem_cons.mp hw with rfl | h'
            · have hw' := ih w' (hrest ▸ List.mem_cons_self w' ws')
              refine ⟨by simp, ?_⟩
              intro x hx
              rcases List.mem_cons.mp hx with rfl | hx'
              · simpa using hc
              · exact hw'.2 x hx'
            · exact ih w (hrest ▸ List.mem_cons_of_mem w' h')

/-- Splitting a single nonempty whitespace-free token returns that token. -/
theorem pySplitWs_single (w : List Char) (hne : w ≠ [])
    (hws : ∀ c ∈ w, ¬ pyIsSpace c) : pySplitWs w = [w] := by
  induction w with
  | nil => exact absurd rfl hne
  | cons c rest ih =>
    have hc : ¬ pyIsSpace c = true := hws c (List.mem_cons_self c rest)
    cases rest with
    | nil => simp [pySplitWs, hc]
    | cons d rest' =>
      have hd : ¬ pyIsSpace d = true := hws d (by simp)
      have hone := ih (by simp) (fun x hx => hws x (List.mem_cons_of_mem c hx))
      rw [pySplitWs, hone]
      simp [hc, hd]

/-- Splitting a nonempty whitespace-free token, a space, and a remainder
    yields the token followed by the split of the remainder. -/
theorem pySplitWs_token_space (w : List Char) (t : List Char) (hne : w ≠ [])
    (hws : ∀ c ∈ w, ¬ pyIsSpace c) :
    pySplitWs (w ++ ' ' :: t) = w :: pySplitWs t := by
  induction w with
  | nil => exact absurd rfl hne
  | cons c rest ih =>
    have hc : ¬ pyIsSpace c = true := hws c (List.mem_cons_self c rest)
    cases rest with
    | nil =>
      simp only [List.nil_append, List.cons_append, pySplitWs]
      have hsp : pyIsSpace ' ' = true := by decide
      cases ht : pySplitWs t with
      | nil => simp [pySplitWs, hc, hsp, ht]
      | cons w' ws' => simp [pySplitWs, hc, hsp, ht]
    | cons d rest' =>
      have hd : ¬ pyIsSpace d = true := hws d (by simp)
      have hih := ih (by simp) (fun x hx => hws x (List.mem_cons_of_mem c hx))
      simp only [List.cons_append] at hih ⊢
      rw [pySplitWs, hih]
      simp [hc, hd]

/-- Splitting a single-space join recovers the word list, provided every
    word is nonempty and whitespace-free. -/
theorem pySplitWs_joinSpace (ws : List (List Char))
    (h : ∀ w ∈ ws, w ≠ [] ∧ ∀ c ∈ w, ¬ pyIsSpace c) :
    pySplitWs (joinSpace ws) = ws := by
  induction ws with
  | nil => rfl
  | cons w rest ih =>
    cases rest with
    | nil =>
      obtain ⟨hne, hws⟩ := h w (List.mem_cons_self w [])
      simpa [joinSpace] using pySplitWs_single w hne hws
    | cons w' rest' =>
      obtain ⟨hne, hws⟩ := h w (List.mem_cons_self w _)
      have hih := ih (fun x hx => h x (List.mem_cons_of_mem w hx))
      simpa [joinSpace] using (pySplitWs_token_space w _ hne hws).trans (by rw [hih])

/-- Whitespace collapsing is idempotent. -/
theorem collapseWs_idem (u : List Char) : collapseWs (collapseWs u) = collapseWs u := by
  unfold collapseWs
  rw [pySplitWs_joinSpace (pySplitWs u) (pySplitWs_tokens u)]

/-- C6 counterexample: cleaning `"( 1 abc"` yields `"1 abc"` (the opening
    parenthesis was trimmed, exposing new leading numbering), and cleaning
    again yields `"abc"` — so `clean(clean(s)) ≠ clean(s)`. -/
theorem C6_clean_name_counterexample :
    ResponseValidator.clean_name "( 1 abc".toList = "1 abc".toList ∧
    ResponseValidator.clean_name (ResponseValidator.clean_name "( 1 abc".toList) =
      "abc".toList ∧
    ResponseValidator.clean_name (ResponseValidator.clean_name "( 1 abc".toList) ≠
      ResponseValidator.clean_name "( 1 abc".toList := by
  refine ⟨rfl, rfl, ?_⟩
  decide

/-- C6 (amended): name-cleaning is idempotent exactly on names whose cleaned
    form is already stable under the leading-numbering strip and the
    punctuation trim; punctuation-trimming can expose fresh leading numbering
    (as in `"( 1 abc"`), and only then can a second application clean
    further. -/
theorem C6_clean_name_amended (s : List Char)
    (h1 : (ResponseValidator.clean_name s).dropWhile ResponseValidator.leadNumClass =
      ResponseValidator.clean_name s)
    (h2 : pyStripSet ResponseValidator.trimPunct (ResponseValidator.clean_name s) =
      ResponseValidator.clean_name s) :
    ResponseValidator.clean_name (ResponseValidator.clean_name s) =
      ResponseValidator.clean_name s := by
  conv_lhs => rw [ResponseValidator.clean_name, h1, h2]
  show collapseWs (ResponseValidator.clean_name s) = ResponseValidator.clean_name s
  rw [ResponseValidator.clean_name]
  exact collapseWs_idem _

/-- Witness for C6 (amended) at the already-clean name `"abc"`. -/
theorem C6_clean_name_amended_witness :
    ((ResponseValidator.clean_name "abc".toList).dropWhile ResponseValidator.leadNumClass =
      ResponseValidator.clean_name "abc".toList) ∧
    (pyStripSet ResponseValidator.trimPunct (ResponseValidator.clean_name "abc".toList) =
      ResponseValidator.clean_name "abc".toList) ∧
    ResponseValidator.clean_name (ResponseValidator.clean_name "abc".toList) =
      ResponseValidator.clean_name "abc".toList :=
  ⟨by decide, by decide, C6_clean_name_amended "abc".toList (by decide) (by decide)⟩

/-- A value passing `_validate_structure` is a dict with a list-valued
    `bill_items`. -/
theorem validate_structure_ok (d : JValue)
    (h : JSONParser.validate_structure d = true) :
    ∃ ms items, d = .jobj ms ∧ jGet ms "bill_items" = some (.jarr items) := by
  cases d with
  | jobj ms =>
    simp only [JSONParser.validate_structure] at h
    split at h
    · exact absurd h (by simp)
    · split at h
      next items hget => exact ⟨ms, items, rfl, hget⟩
      next => exact absurd h (by simp)
  | jnull => simp [JSONParser.validate_structure] at h
  | jbool b => simp [JSONParser.validate_structure] at h
  | jnum q => simp [JSONParser.validate_structure] at h
  | jstr s => simp [JSONParser.validate_structure] at h
  | jarr l => simp [JSONParser.validate_structure] at h

/-- Strategy 1 only returns structurally validated data. -/
theorem try_direct_parse_validated (t : List Char) (d : JValue)
    (h : JSONParser.try_direct_parse t = some d) :
    JSONParser.validate_structure d = true := by
  simp only [JSONParser.try_direct_parse] at h
  split at h
  · split at h
    next hval => rw [Option.some.injEq] at h; subst h; exact hval
    next => exact absurd h (by simp)
  · exact absurd h (by simp)

/-- Strategy 2 only returns structurally validated data. -/
theorem try_code_block_parse_validated (t : List Char) (d : JValue)
    (h : JSONParser.try_code_block_parse t = some d) :
    JSONParser.validate_structure d = true := by
  simp only [JSONParser.try_code_block_parse] at h
  split at h
  · exact absurd h (by simp)
  · split at h
    · split at h
      next hval => rw [Option.some.injEq] at h; subst h; exact hval
      next => exact absurd h (by simp)
    · exact absurd h (by simp)

/-- Strategy 3 only returns structurally validated data. -/
theorem try_json_object_parse_validated (t : List Char) (d : JValue)
    (h : JSONParser.try_json_object_parse t = some d) :
    JSONParser.validate_structure d = true := by
  simp only [JSONParser.try_json_object_parse] at h
  split at h
  · exact absurd h (by simp)
  · split at h
    · split at h
      next hval => rw [Option.some.injEq] at h; subst h; exact hval
      next => exact absurd h (by simp)
    · exact absurd h (by simp)

/-- Strategy 4 only returns structurally validated data. -/
theorem try_fixed_parse_validated (t : List Char) (d : JValue)
    (h : JSONParser.try_fixed_parse t = some d) :
    JSONParser.validate_structure d = true := by
  simp only [JSONParser.try_fixed_parse] at h
  split at h
  · exact absurd h (by simp)
  · split at h
    · split at h
      next hval => rw [Option.some.injEq] at h; subst h; exact hval
      next => exact absurd h (by simp)
    · exact absurd h (by simp)

/-- Strategy 5 builds a dict whose `bill_items` is a list by construction. -/
theorem try_regex_extraction_shape (t : List Char) (d : JValue)
    (h : JSONParser.try_regex_extraction t = some d) :
    ∃ ms items, d = .jobj ms ∧ jGet ms "bill_items" = some (.jarr items) := by
  simp only [JSONParser.try_regex_extraction] at h
  repeat' split at h
  all_goals
    first
    | (rw [Option.some.injEq] at h; subst h; exact ⟨_, _, rfl, rfl⟩)
    | exact absurd h (by simp)

/-- C5: `JSONParser.parse` never fails structurally — for every input string
    it returns either `None` or a mapping that passed structural validation,
    i.e. a dict carrying a list-typed `bill_items` field (empty and
    pathological inputs included; exceptions inside the strategies are all
    caught). -/
theorem C5_parse_never_raises (text : List Char) :
    JSONParser.parse text = none ∨
    ∃ ms items, JSONParser.parse text = some (JValue.jobj ms) ∧
      jGet ms "bill_items" = some (JValue.jarr items) := by
  unfold JSONParser.parse
  split
  · exact Or.inl rfl
  · dsimp only
    split
    next r h1 =>
      obtain ⟨ms, items, rfl, hget⟩ :=
        validate_structure_ok r (try_direct_parse_validated _ _ h1)
      exact Or.inr ⟨ms, items, rfl, hget⟩
    next h1 =>
      split
      next r h2 =>
        obtain ⟨ms, items, rfl, hget⟩ :=
          validate_structure_ok r (try_code_block_parse_validated _ _ h2)
        exact Or.inr ⟨ms, items, rfl, hget⟩
      next h2 =>
        split
        next r h3 =>
          obtain ⟨ms, items, rfl, hget⟩ :=
            validate_structure_ok r (try_json_object_parse_validated _ _ h3)
          exact Or.inr ⟨ms, items, rfl, hget⟩
        next h3 =>
          split
          next r h4 =>
            obtain ⟨ms, items, rfl, hget⟩ :=
              validate_structure_ok r (try_fixed_parse_validated _ _ h4)
            exact Or.inr ⟨ms, items, rfl, hget⟩
          next h4 =>
            cases h5 : JSONParser.try_regex_extraction (pyStrip text) with
            | none => exact Or.inl rfl
            | some r =>
              obtain ⟨ms, items, rfl, hget⟩ := try_regex_extraction_shape _ r h5
              exact Or.inr ⟨ms, items, rfl, hget⟩

/-- C3 counterexample: `salvage_partial_json` copies the raw `page_type`
    label verbatim — on a truncated response carrying
    `"page_type":"Garbage"` the resulting page is labelled `Garbage`, which
    is not in the closed enumeration, and nothing downstream renormalizes
    the salvage path. -/
theorem C3_page_type_counterexample :
    InvoiceExtractor.salvage_partial_json
        ("\x7b\"page_type\":\"Garbage\",\"bill_items\":[\x7b\"item_name\":\"AB\",\"item_amount\":5\x7d").toList =
      some { page_no := "1", page_type := "Garbage",
             bill_items := [{ item_name := "AB".toList, item_amount := 5,
                              item_rate := none, item_quantity := none }] } ∧
    "Garbage" ∉ pageTypeEnum :=
  ⟨rfl, by decide⟩

/-- C3 (amended): the closed page-type enumeration holds on the
    schema-validation and `format_result` paths — `validate_page_type` always
    lands in the enumeration and maps unmapped labels to `Bill Detail`, and
    `format_result` restricts to a subset of it — but the regex-salvage path
    (`salvage_partial_json`) copies the raw `page_type` label verbatim, so
    salvage-produced PageResults may carry labels outside the enumeration. -/
theorem C3_page_type_amended :
    (∀ v : String, PageResult.validate_page_type v ∈ pageTypeEnum) ∧
    (∀ v : String,
      (PageResult.type_mapping.all
        (fun kv => !(isSubstr kv.1.toList (pyStrip (pyLower v.toList))))) = true →
      PageResult.validate_page_type v = "Bill Detail") ∧
    (∀ (ms : List (String × JValue)) (r : InvoiceExtractor.Page),
      InvoiceExtractor.format_result (.jobj ms) = some r →
        r.page_type ∈ pageTypeEnum) := by
  refine ⟨?_, ?_, ?_⟩
  · intro v
    simp only [PageResult.validate_page_type]
    split
    next kv hf =>
      exact (by decide : ∀ kv ∈ PageResult.type_mapping, kv.2 ∈ pageTypeEnum)
        kv (List.mem_of_find?_eq_some hf)
    next => decide
  · intro v hall
    simp only [PageResult.validate_page_type]
    split
    next kv hf =>
      have hp := List.find?_some hf
      have hmem := List.mem_of_find?_eq_some hf
      have hneg := List.all_eq_true.mp hall kv hmem
      rw [Bool.not_eq_true'] at hneg
      rw [hp] at hneg
      cases hneg
    next => rfl
  · intro ms r h
    have hmem := (format_result_page_types_core ms r h).1
    have hsub : ∀ s, s ∈ ["Bill Detail", "Final Bill", "Pharmacy"] →
        s ∈ pageTypeEnum := by decide
    exact hsub _ hmem

/-- Witness for C3 (amended): the unmapped label `Garbage` normalizes to
    `Bill Detail` inside the enumeration on the schema path, and a concrete
    `format_result` page lands in the enumeration. -/
theorem C3_page_type_amended_witness :
    PageResult.validate_page_type "Garbage" ∈ pageTypeEnum ∧
    PageResult.validate_page_type "Garbage" = "Bill Detail" ∧
    ({ page_no := "1", page_type := "Bill Detail",
       bill_items := [{ item_name := ['X'], item_amount := 5,
                        item_rate := none, item_quantity := none }] } :
      InvoiceExtractor.Page).page_type ∈ pageTypeEnum := by
  refine ⟨C3_page_type_amended.1 "Garbage",
          C3_page_type_amended.2.1 "Garbage" (by decide),
          C3_page_type_amended.2.2
            [("page_type", .jstr "Investigation"),
             ("bill_items", .jarr [.jobj [("item_name", .jstr "X"),
                                          ("item_amount", .jnum 5)]])]
            _ rfl⟩

section
open JSONParser

-- structural helpers
theorem items_cons (n : Nat) : ∃ t, itemsFrom n = lbrace :: t := by
  cases n with
  | zero => exact ⟨_, rfl⟩
  | succ n => exact ⟨_, rfl⟩

theorem items_ends (n : Nat) : ∃ u, itemsFrom n = u ++ [rbrace] := by
  induction n with
  | zero => exact ⟨"\x7b\"item_name\":\"A\",\"item_amount\":5".toList, by decide⟩
  | succ n ih =>
    obtain ⟨u, hu⟩ := ih
    exact ⟨itChars ++ ',' :: u, by
      show itChars ++ ',' :: itemsFrom n = (itChars ++ ',' :: u) ++ [rbrace]
      rw [hu]; simp⟩

-- scanner chunk lemmas (all definitional)
theorem fn_hdr (l : List Char) :
    fixNewlinesGo false false (hdrChars ++ l) = hdrChars ++ fixNewlinesGo false false l := rfl
theorem fn_it_comma (l : List Char) :
    fixNewlinesGo false false (itChars ++ ',' :: l) =
      itChars ++ ',' :: fixNewlinesGo false false l := rfl
theorem fn_it_term : fixNewlinesGo false false itChars = itChars := rfl

theorem cc_hdr (close : Char) (l : List Char) :
    subCommaCloseGo close false (hdrChars ++ l) = hdrChars ++ subCommaCloseGo close false l := rfl
theorem cc_it_comma_brace (l : List Char) :
    subCommaCloseGo rbrace false (itChars ++ ',' :: lbrace :: l) =
      itChars ++ ',' :: subCommaCloseGo rbrace false (lbrace :: l) := rfl
theorem cc_it_comma_bracket (l : List Char) :
    subCommaCloseGo ']' false (itChars ++ ',' :: lbrace :: l) =
      itChars ++ ',' :: subCommaCloseGo ']' false (lbrace :: l) := rfl
theorem cc_it_term_brace : subCommaCloseGo rbrace false itChars = itChars := rfl
theorem cc_it_term_bracket : subCommaCloseGo ']' false itChars = itChars := rfl

theorem bb_hdr (l : List Char) :
    subBraceBraceGo false (hdrChars ++ l) = hdrChars ++ subBraceBraceGo false l := rfl
theorem bb_it_comma (l : List Char) :
    subBraceBraceGo false (itChars ++ ',' :: l) = itChars ++ ',' :: subBraceBraceGo false l := rfl
theorem bb_it_term : subBraceBraceGo false itChars = itChars := rfl

theorem qk_hdr (l : List Char) :
    subQuoteKeysGo false (hdrChars ++ l) = hdrChars ++ subQuoteKeysGo false l := rfl
theorem qk_it_comma (l : List Char) :
    subQuoteKeysGo false (itChars ++ ',' :: l) = itChars ++ ',' :: subQuoteKeysGo false l := rfl
theorem qk_it_term : subQuoteKeysGo false itChars = itChars := rfl

theorem dq_hdr (l : List Char) :
    subDoubleQuotedGo 0 (hdrChars ++ l) = hdrChars ++ subDoubleQuotedGo 0 l := rfl
theorem dq_it_comma (l : List Char) :
    subDoubleQuotedGo 0 (itChars ++ ',' :: l) = itChars ++ ',' :: subDoubleQuotedGo 0 l := rfl
theorem dq_it_term : subDoubleQuotedGo 0 itChars = itChars := rfl

theorem fn_items (n : Nat) : fixNewlinesGo false false (itemsFrom n) = itemsFrom n := by
  induction n with
  | zero => exact fn_it_term
  | succ n ih =>
    show fixNewlinesGo false false (itChars ++ ',' :: itemsFrom n) = itemsFrom (n + 1)
    rw [fn_it_comma, ih]
    rfl

theorem cc_items_brace (n : Nat) : subCommaCloseGo rbrace false (itemsFrom n) = itemsFrom n := by
  induction n with
  | zero => exact cc_it_term_brace
  | succ n ih =>
    obtain ⟨t, ht⟩ := items_cons n
    show subCommaCloseGo rbrace false (itChars ++ ',' :: itemsFrom n) = itemsFrom (n + 1)
    rw [ht, cc_it_comma_brace, ← ht, ih]
    rfl

theorem cc_items_bracket (n : Nat) : subCommaCloseGo ']' false (itemsFrom n) = itemsFrom n := by
  induction n with
  | zero => exact cc_it_term_bracket
  | succ n ih =>
    obtain ⟨t, ht⟩ := items_cons n
    show subCommaCloseGo ']' false (itChars ++ ',' :: itemsFrom n) = itemsFrom (n + 1)
    rw [ht, cc_it_comma_bracket, ← ht, ih]
    rfl

theorem bb_items (n : Nat) : subBraceBraceGo false (itemsFrom n) = itemsFrom n := by
  induction n with
  | zero => exact bb_it_term
  | succ n ih =>
    show subBraceBraceGo false (itChars ++ ',' :: itemsFrom n) = itemsFrom (n + 1)
    rw [bb_it_comma, ih]
    rfl

theorem qk_items (n : Nat) : subQuoteKeysGo false (itemsFrom n) = itemsFrom n := by
  induction n with
  | zero => exact qk_it_term
  | succ n ih =>
    show subQuoteKeysGo false (itChars ++ ',' :: itemsFrom n) = itemsFrom (n + 1)
    rw [qk_it_comma, ih]
    rfl

theorem dq_items (n : Nat) : subDoubleQuotedGo 0 (itemsFrom n) = itemsFrom n := by
  induction n with
  | zero => exact dq_it_term
  | succ n ih =>
    show subDoubleQuotedGo 0 (itChars ++ ',' :: itemsFrom n) = itemsFrom (n + 1)
    rw [dq_it_comma, ih]
    rfl

theorem fix_pre_span (n : Nat) :
    subDoubleQuoted (subQuoteKeys (subBraceBrace (subCommaClose ']'
      (subCommaClose rbrace (fix_string_newlines (hdrChars ++ itemsFrom n)))))) =
    hdrChars ++ itemsFrom n := by
  unfold fix_string_newlines subCommaClose subBraceBrace subQuoteKeys subDoubleQuoted
  rw [fn_hdr, fn_items, cc_hdr, cc_items_brace, cc_hdr, cc_items_bracket,
      bb_hdr, bb_items, qk_hdr, qk_items, dq_hdr, dq_items]

theorem items_count_lbrace (n : Nat) : (itemsFrom n).count lbrace = n + 1 := by
  induction n with
  | zero => decide
  | succ n ih =>
    show ((itChars ++ ',' :: itemsFrom n).count lbrace) = n + 2
    have h1 : itChars.count lbrace = 1 := by decide
    rw [List.count_append, List.count_cons, ih, h1, if_neg (by decide)]
    omega

theorem items_count_rbrace (n : Nat) : (itemsFrom n).count rbrace = n + 1 := by
  induction n with
  | zero => decide
  | succ n ih =>
    show ((itChars ++ ',' :: itemsFrom n).count rbrace) = n + 2
    have h1 : itChars.count rbrace = 1 := by decide
    rw [List.count_append, List.count_cons, ih, h1, if_neg (by decide)]
    omega

theorem items_count_lbracket (n : Nat) : (itemsFrom n).count '[' = 0 := by
  induction n with
  | zero => decide
  | succ n ih =>
    show ((itChars ++ ',' :: itemsFrom n).count '[') = 0
    have h1 : itChars.count '[' = 0 := by decide
    rw [List.count_append, List.count_cons, ih, h1, if_neg (by decide)]

theorem items_count_rbracket (n : Nat) : (itemsFrom n).count ']' = 0 := by
  induction n with
  | zero => decide
  | succ n ih =>
    show ((itChars ++ ',' :: itemsFrom n).count ']') = 0
    have h1 : itChars.count ']' = 0 := by decide
    rw [List.count_append, List.count_cons, ih, h1, if_neg (by decide)]

theorem flci_hdr (full l : List Char) (i : Nat) (start best : Int) :
    flciGo full (hdrChars ++ l) i 0 start best =
    flciGo full l (i + 15) 1 (i : Int) best := rfl

theorem flci_it (full l : List Char) (i : Nat) (start best : Int) :
    flciGo full (itChars ++ l) i 1 start best =
    flciGo full l (i + 33) 1 start best := rfl

theorem flci_comma (full l : List Char) (i : Nat) (start best : Int) :
    flciGo full (',' :: l) i 1 start best =
    flciGo full l (i + 1) 1 start best := rfl

theorem flci_items (full : List Char) (n : Nat) :
    ∀ (i : Nat) (start best : Int), flciGo full (itemsFrom n) i 1 start best = best := by
  induction n with
  | zero => intro i start best; rfl
  | succ n ih =>
    intro i start best
    show flciGo full (itChars ++ ',' :: itemsFrom n) i 1 start best = best
    rw [flci_it, flci_comma]
    exact ih _ _ _

theorem flci_span (n : Nat) :
    find_last_complete_item (hdrChars ++ itemsFrom n) = -1 := by
  unfold find_last_complete_item
  rw [flci_hdr]
  exact flci_items _ n _ _ _

theorem rstrip_last (p : Char → Bool) (x : List Char) (c : Char) (h : p c = false) :
    pyRstripSet p (x ++ [c]) = x ++ [c] := by
  unfold pyRstripSet
  rw [List.reverse_append]
  simp [List.dropWhile_cons, h]

theorem span_count_lbrace (n : Nat) : (hdrChars ++ itemsFrom n).count lbrace = n + 2 := by
  have hh : hdrChars.count lbrace = 1 := by decide
  rw [List.count_append, items_count_lbrace, hh]
  omega

theorem span_count_rbrace (n : Nat) : (hdrChars ++ itemsFrom n).count rbrace = n + 1 := by
  have hh : hdrChars.count rbrace = 0 := by decide
  rw [List.count_append, items_count_rbrace, hh]
  omega

theorem span_count_lbracket (n : Nat) : (hdrChars ++ itemsFrom n).count '[' = 1 := by
  have hh : hdrChars.count '[' = 1 := by decide
  rw [List.count_append, items_count_lbracket, hh]

theorem span_count_rbracket (n : Nat) : (hdrChars ++ itemsFrom n).count ']' = 0 := by
  have hh : hdrChars.count ']' = 0 := by decide
  rw [List.count_append, items_count_rbracket, hh]

theorem fix_trunc_span (n : Nat) :
    fix_truncation (hdrChars ++ itemsFrom n) =
    (hdrChars ++ itemsFrom n) ++ [']', rbrace] := by
  obtain ⟨u, hu⟩ := items_ends n
  have hsp : hdrChars ++ itemsFrom n = (hdrChars ++ u) ++ [rbrace] := by
    rw [hu]; simp
  have hr1 : pyRstripSet (fun c => c = ',') (hdrChars ++ itemsFrom n) =
      hdrChars ++ itemsFrom n := by
    rw [hsp]; exact rstrip_last _ _ _ (by decide)
  have hr2 : pyRstripSet pyIsSpace (hdrChars ++ itemsFrom n) =
      hdrChars ++ itemsFrom n := by
    rw [hsp]; exact rstrip_last _ _ _ (by decide)
  have hd1 : ((n + 2 : Nat) : Int) - ((n + 1 : Nat) : Int) = 1 := by omega
  have hd2 : ((1 : Nat) : Int) - ((0 : Nat) : Int) = 1 := by omega
  have e1 : List.count lbrace hdrChars = 1 := by decide
  have e2 : List.count rbrace hdrChars = 0 := by decide
  have e3 : List.count '[' hdrChars = 1 := by decide
  have e4 : List.count ']' hdrChars = 0 := by decide
  simp only [fix_truncation, span_count_lbrace, span_count_rbrace,
    span_count_lbracket, span_count_rbracket, flci_span, hd1, hd2,
    hr1, hr2]
  norm_num [e1, e2, e3, e4, items_count_lbrace, items_count_rbrace,
    items_count_lbracket, items_count_rbracket, hr1, hr2]

theorem fix_issues_span (n : Nat) :
    fix_json_issues (hdrChars ++ itemsFrom n) =
    (hdrChars ++ itemsFrom n) ++ [']', rbrace] := by
  simp only [fix_json_issues]
  rw [fix_pre_span, fix_trunc_span]

theorem dropWhile_append_all (p : Char → Bool) (x y : List Char)
    (h : x.all p = true) : (x ++ y).dropWhile p = y.dropWhile p := by
  induction x with
  | nil => rfl
  | cons a t ih =>
    simp only [List.all_cons, Bool.and_eq_true] at h
    simp only [List.cons_append, List.dropWhile_cons, h.1, if_true]
    exact ih h.2

theorem jsonObjectSpan_shape (T w : List Char)
    (hw : T.reverse.dropWhile (fun c => ¬ c = rbrace) = rbrace :: w) :
    jsonObjectSpan (lbrace :: T) = some (lbrace :: (rbrace :: w).reverse) := by
  have h1 : jsonObjectSpan (lbrace :: T) =
      (match T.reverse.dropWhile (fun c => ¬ c = rbrace) with
       | [] => (none : Option (List Char))
       | _ => some (lbrace :: (T.reverse.dropWhile (fun c => ¬ c = rbrace)).reverse)) := rfl
  rw [h1, hw]

theorem span_of_mkTruncDoc (n : Nat) :
    jsonObjectSpan (mkTruncDoc n) = some (hdrChars ++ itemsFrom n) := by
  obtain ⟨u, hu⟩ := items_ends n
  have hdoc : mkTruncDoc n = lbrace :: (hdrTail ++ (itemsFrom n ++ fragChars)) := by
    show hdrChars ++ itemsFrom n ++ fragChars = _
    rw [show hdrChars = lbrace :: hdrTail from rfl]
    simp
  have hrev : (hdrTail ++ (itemsFrom n ++ fragChars)).reverse
      = fragChars.reverse ++ (rbrace :: (u.reverse ++ hdrTail.reverse)) := by
    rw [hu]
    simp [List.append_assoc]
  have hw : (hdrTail ++ (itemsFrom n ++ fragChars)).reverse.dropWhile
      (fun c => ¬ c = rbrace) = rbrace :: (u.reverse ++ hdrTail.reverse) := by
    rw [hrev, dropWhile_append_all _ _ _ (by decide)]
    simp [List.dropWhile_cons]
  rw [hdoc, jsonObjectSpan_shape _ _ hw]
  rw [show hdrChars = lbrace :: hdrTail from rfl, hu]
  simp

theorem L_IT (g : Nat) (l : List Char) :
    parseJVal (g + 4) (itChars ++ l) = some (itemVal, l) := by
  with_unfolding_all rfl

theorem EL_step (X : Nat) (t l : List Char) (vs : List JValue)
    (h1 : parseJVal X (itChars ++ ',' :: t) = some (itemVal, ',' :: t))
    (h2 : parseJElems X t = some (vs, l)) :
    parseJElems (X + 1) (itChars ++ ',' :: t) = some (itemVal :: vs, l) := by
  have h0 : parseJElems (X + 1) (itChars ++ ',' :: t) =
      (match parseJVal X (itChars ++ ',' :: t) with
       | none => none
       | some (v, r) =>
         match skipJsonWs r with
         | ',' :: r' =>
           match parseJElems X r' with
           | some (vs, rest) => some (v :: vs, rest)
           | none => none
         | ']' :: r' => some ([v], r')
         | _ => none) := by
    with_unfolding_all rfl
  rw [h0, h1]
  simp only [show skipJsonWs (',' :: t) = ',' :: t from rfl, h2]

theorem EL (n : Nat) : ∀ (f : Nat) (l : List Char),
    parseJElems (n + f + 5) (itemsFrom n ++ ']' :: l) =
      some (List.replicate (n + 1) itemVal, l) := by
  induction n with
  | zero =>
    intro f l
    with_unfolding_all rfl
  | succ n ih =>
    intro f l
    have htx : itemsFrom (n + 1) ++ ']' :: l =
        itChars ++ ',' :: (itemsFrom n ++ ']' :: l) := by
      show (itChars ++ ',' :: itemsFrom n) ++ ']' :: l = _
      simp
    rw [show n + 1 + f + 5 = (n + f + 5) + 1 from by ring, htx]
    exact EL_step (n + f + 5) _ _ _ (L_IT (n + f + 1) _) (ih f l)

theorem v2_step (X : Nat) (b l : List Char) (es : List JValue)
    (h : parseJElems X (lbrace :: b) = some (es, l)) :
    parseJVal (X + 1) ('[' :: lbrace :: b) = some (.jarr es, l) := by
  have h0 : parseJVal (X + 1) ('[' :: lbrace :: b) =
      (match parseJElems X (lbrace :: b) with
       | some (es, rest) => some ((.jarr es : JValue), rest)
       | none => none) := by
    with_unfolding_all rfl
  rw [h0, h]

theorem m1_step (X : Nat) (b : List Char) (v : JValue)
    (h : parseJVal (X + 1) ('[' :: lbrace :: b) = some (v, [rbrace])) :
    parseJMembers (X + 2) (hdrTail ++ lbrace :: b) = some ([("bill_items", v)], []) := by
  have h0 : parseJMembers (X + 2) (hdrTail ++ lbrace :: b) =
      (match parseJVal (X + 1) ('[' :: lbrace :: b) with
       | none => none
       | some (v, r3) =>
         match skipJsonWs r3 with
         | ',' :: r4 =>
           match parseJMembers (X + 1) r4 with
           | some (ms, rest) => some (("bill_items", v) :: ms, rest)
           | none => none
         | c :: r4 => if c = rbrace then some ([("bill_items", v)], r4) else none
         | [] => none) := by
    with_unfolding_all rfl
  rw [h0, h]
  simp only [show skipJsonWs [rbrace] = [rbrace] from rfl]
  with_unfolding_all rfl

theorem v1_step (X : Nat) (b : List Char) (ms : List (String × JValue))
    (h : parseJMembers (X + 2) (hdrTail ++ lbrace :: b) = some (ms, [])) :
    parseJVal (X + 3) (hdrChars ++ lbrace :: b) = some (.jobj ms, []) := by
  have h0 : parseJVal (X + 3) (hdrChars ++ lbrace :: b) =
      (match parseJMembers (X + 2) (hdrTail ++ lbrace :: b) with
       | some (ms, rest) => some ((.jobj ms : JValue), rest)
       | none => none) := by
    with_unfolding_all rfl
  rw [h0, h]

theorem items_length (n : Nat) : (itemsFrom n).length = 34 * n + 33 := by
  induction n with
  | zero => decide
  | succ n ih =>
    show (itChars ++ ',' :: itemsFrom n).length = 34 * (n + 1) + 33
    have hic : itChars.length = 33 := by decide
    simp [List.length_append, hic, ih]
    ring

theorem loads_fixed (n : Nat) :
    pyJsonLoads ((hdrChars ++ itemsFrom n) ++ [']', rbrace]) = some (expectedDoc n) := by
  obtain ⟨t, ht⟩ := items_cons n
  have htext : (hdrChars ++ itemsFrom n) ++ [']', rbrace] =
      hdrChars ++ lbrace :: (t ++ [']', rbrace]) := by
    rw [ht]; simp
  have hel : parseJElems (68 * n + 99) (lbrace :: (t ++ [']', rbrace])) =
      some (List.replicate (n + 1) itemVal, [rbrace]) := by
    have h := EL n (67 * n + 94) [rbrace]
    rw [show n + (67 * n + 94) + 5 = 68 * n + 99 from by ring, ht] at h
    simpa using h
  have hv1 := v1_step (68 * n + 99) (t ++ [']', rbrace]) _
    (m1_step (68 * n + 99) (t ++ [']', rbrace]) _
      (v2_step (68 * n + 99) (t ++ [']', rbrace]) [rbrace] _ hel))
  have hlen : ((hdrChars ++ itemsFrom n) ++ [']', rbrace]).length = 34 * n + 50 := by
    have hh : hdrChars.length = 15 := by decide
    simp [List.length_append, items_length, hh]
    ring
  simp only [pyJsonLoads, hlen]
  rw [show 2 * (34 * n + 50) + 2 = (68 * n + 99) + 3 from by ring, htext, hv1]
  rfl

theorem all_replicate_itemVal (m : Nat) :
    (List.replicate m itemVal).all
      (fun it => match it with | JValue.jobj _ => true | _ => false) = true := by
  induction m with
  | zero => rfl
  | succ k ih =>
    rw [List.replicate_succ, List.all_cons, ih]
    rfl

theorem validate_structure_expected (n : Nat) :
    validate_structure (expectedDoc n) = true := by
  have h0 : validate_structure (expectedDoc n) =
      (List.replicate (n + 1) itemVal).all
        (fun it => match it with | JValue.jobj _ => true | _ => false) := rfl
  rw [h0]
  exact all_replicate_itemVal (n + 1)

/-- C2 (amended): on the canonical truncated family — `n + 1` complete items
    followed by an incomplete item containing no close brace — the repair
    strategy of `_try_fixed_parse` recovers exactly the `n + 1` complete items
    and drops the incomplete one.  The drop is performed by the greedy
    object-regex cut at the last close brace (`_find_last_complete_item`
    returns `-1` here, since the outer object never closes), after which
    `_fix_truncation` appends `]` and a close brace to rebalance. -/
theorem C2_truncation_repair_amended (n : Nat) :
    try_fixed_parse (mkTruncDoc n) = some (expectedDoc n) := by
  simp only [try_fixed_parse, span_of_mkTruncDoc, fix_issues_span, loads_fixed,
    validate_structure_expected, if_true]

/-- C2 counterexample: a document of the claimed shape — one syntactically
    complete item followed by one syntactically incomplete item and no closing
    brackets — on which the repair does NOT recover the complete item:
    the incomplete item `,\x7b"item_name":"x\x7d` carries a close brace inside
    its unterminated string, so the greedy object regex keeps the fragment,
    `_find_last_complete_item` returns `-1` (the outer object never closes),
    and the rebalanced text is still invalid JSON: `_try_fixed_parse` returns
    `None` instead of a parse holding the complete item. -/
theorem C2_truncation_repair_counterexample :
    truncCexDoc =
      hdrChars ++ itemsFrom 0 ++
        (',' :: lbrace :: ("\"item_name\":\"x".toList ++ [rbrace])) ∧
    try_fixed_parse truncCexDoc = none := by
  refine ⟨by decide, ?_⟩
  have h1 : jsonObjectSpan truncCexDoc = some truncCexDoc := by
    with_unfolding_all rfl
  have h2 : fix_json_issues truncCexDoc = truncCexDoc ++ [']', rbrace] := by
    with_unfolding_all rfl
  have h3 : pyJsonLoads (truncCexDoc ++ [']', rbrace]) = none := by
    with_unfolding_all rfl
  simp only [try_fixed_parse, h1, h2, h3]

end

end Invoice
